import Mathlib

/-!
Verification development for the fmfm FM-synthesis core.

Two components are embedded:

* `Sim` — the synthesis channel (`sim/channel.go`): algorithm routing,
  feedback delay state, and the per-sample `next` function.  The operator
  internals (`operator.go` is not part of the sources at hand) are
  abstracted: an operator is a record of the fields the channel reads
  (envelope stage, feedback coefficient, modulator role), and `op.next`
  is a parameter of `Channel.next`, so every theorem holds for every
  possible operator behaviour.  Float64 samples are modelled as rationals;
  the reals computed on the non-early-exit path are never evaluated by the
  theorems below.
* `Ctl` — the MIDI controller (`controller.go`): slot allocation, note
  on/off, control changes, and the register-write sequences it emits.
  Register writes are recorded as an explicit trace.  The only floating
  computation, `int(freq*ymfdata.FNUMCoef)` inside `writeFrequency`, is
  factored out as an oracle `F : Int → Int → Int` of the note and pitch;
  all the integer arithmetic around it is embedded from the source.
-/

namespace Sim

/-- Envelope stages of an operator.  `operator.go` is not among the given
sources; the stage set is modelled from the spec, which lists
Off, Attack, Decay, Sustain, Release and Damp, with Off the initial
state.  The channel code only compares against `stageOff`. -/
inductive Stage
  | off
  | attack
  | decay
  | sustain
  | release
  | damp
deriving DecidableEq

/-- The slice of operator state that `channel.go` reads or resets.
Modelled from the spec: the phase accumulator and envelope level stand in
for the phase/envelope generators of the missing `operator.go`. -/
structure Op where
  stage : Stage := .off
  envLevel : ℚ := 0
  phase : ℚ := 0
  feedbackCoef : ℚ := 0
  isModulator : Bool := false
deriving DecidableEq

/-- Modelled from the spec: `op.phaseGenerator.reset()` followed by
`op.envelopeGenerator.reset()` — the phase returns to zero and the
envelope returns to its initial state (stage Off, level 0). -/
def Op.resetPE (o : Op) : Op :=
  { o with phase := 0, stage := .off, envLevel := 0 }

/-- Modelled from the spec: `ymfdata.ModulatorMatrix` — for each algorithm,
which of the four operators feed another operator (per the topology
diagrams reproduced at the top of `channel.go`). -/
def ModulatorMatrix (alg : Nat) (i : Fin 4) : Bool :=
  match alg, i with
  | 0, 0 => true
  | 3, 0 => true | 3, 1 => true | 3, 2 => true
  | 4, 0 => true | 4, 1 => true | 4, 2 => true
  | 5, 0 => true | 5, 2 => true
  | 6, 1 => true | 6, 2 => true
  | 7, 1 => true
  | _, _ => false

/-- The channel state of `sim/channel.go` (the fields touched by `reset`,
`setALG` and `next`).  `Frac64` fixed-point accumulators are 64-bit
unsigned integers, modelled as naturals reduced mod `2 ^ 64`. -/
structure Channel where
  alg : Nat
  modIndexFrac64 : Nat
  lfoFrequency : Nat
  feedback1Prev : ℚ
  feedback1Curr : ℚ
  feedback3Prev : ℚ
  feedback3Curr : ℚ
  feedbackOut1 : ℚ
  feedbackOut3 : ℚ
  feedbackBlendPrev : ℚ
  feedbackBlendCurr : ℚ
  attenuationCoef : ℚ
  panCoefL : ℚ
  panCoefR : ℚ
  op1 : Op
  op2 : Op
  op3 : Op
  op4 : Op
deriving DecidableEq

/-- `Channel.reset` from `channel.go`: zero the LFO index and all feedback
state, and reset each operator's phase and envelope generators. -/
def Channel.reset (ch : Channel) : Channel :=
  { ch with
    modIndexFrac64 := 0
    feedback1Prev := 0
    feedback1Curr := 0
    feedback3Prev := 0
    feedback3Curr := 0
    feedbackOut1 := 0
    feedbackOut3 := 0
    op1 := ch.op1.resetPE
    op2 := ch.op2.resetPE
    op3 := ch.op3.resetPE
    op4 := ch.op4.resetPE }

/-- `Channel.setALG` from `channel.go`: call `reset` only when the value
differs from the current algorithm, then unconditionally store the new
algorithm, zero the four feedback delay registers, and recompute each
operator's modulator role from the matrix. -/
def Channel.setALG (ch : Channel) (v : Nat) : Channel :=
  let c1 := if ch.alg ≠ v then ch.reset else ch
  let c2 := { c1 with
    alg := v
    feedback1Prev := (0 : ℚ)
    feedback1Curr := (0 : ℚ)
    feedback3Prev := (0 : ℚ)
    feedback3Curr := (0 : ℚ) }
  { c2 with
    op1 := { c2.op1 with isModulator := ModulatorMatrix v 0 }
    op2 := { c2.op2 with isModulator := ModulatorMatrix v 1 }
    op3 := { c2.op3 with isModulator := ModulatorMatrix v 2 }
    op4 := { c2.op4 with isModulator := ModulatorMatrix v 3 } }

/-- Shared `ymfdata` scalars consumed by `Channel.next` whose concrete
values live outside the given sources; the theorems hold for every choice. -/
structure YmfConsts where
  modulatorMultiplier : ℚ
  modTableIndexShift : Nat

/-- Tail of `Channel.next`: the feedback delay-line update for operators
1 and 3 (guarded by a nonzero feedback coefficient) followed by
attenuation and panning of the summed carrier output. -/
def Channel.finish (ch : Channel) (op1out op3out result : ℚ)
    (evald : List (Fin 4)) : (ℚ × ℚ) × Channel × List (Fin 4) :=
  let c1 :=
    if ch.op1.feedbackCoef ≠ 0 then
      { ch with
        feedback1Prev := ch.feedback1Curr
        feedback1Curr := op1out * ch.op1.feedbackCoef
        feedbackOut1 := ch.feedback1Curr * ch.feedbackBlendPrev +
          op1out * ch.op1.feedbackCoef * ch.feedbackBlendCurr }
    else ch
  let c2 :=
    if c1.op3.feedbackCoef ≠ 0 then
      { c1 with
        feedback3Prev := c1.feedback3Curr
        feedback3Curr := op3out * c1.op3.feedbackCoef
        feedbackOut3 := c1.feedback3Curr * c1.feedbackBlendPrev +
          op3out * c1.op3.feedbackCoef * c1.feedbackBlendCurr }
    else c1
  let r := result * c2.attenuationCoef
  ((r * c2.panCoefL, r * c2.panCoefR), c2, evald)

/-- `Channel.next` from `channel.go`.  `opNext i op modIndex modulator`
abstracts `ch.operators[i].next(modIndex, modulator)` (the operator code is
outside the given sources), returning the sample and the advanced operator
state; the returned list records which operators were evaluated, in order.
The LFO index advances before the algorithm switch; each arm returns
`(0, 0)` immediately when its carriers are all in stage Off. -/
def Channel.next (K : YmfConsts) (opNext : Fin 4 → Op → Int → ℚ → ℚ × Op)
    (ch0 : Channel) : (ℚ × ℚ) × Channel × List (Fin 4) :=
  let modIndex : Int := Int.ofNat (ch0.modIndexFrac64 >>> K.modTableIndexShift)
  let ch := { ch0 with
    modIndexFrac64 := (ch0.modIndexFrac64 + ch0.lfoFrequency) % 2 ^ 64 }
  match ch.alg with
  | 0 =>
    if ch.op2.stage = .off then ((0, 0), ch, []) else
    let r1 := opNext 0 ch.op1 modIndex ch.feedbackOut1
    let r2 := opNext 1 ch.op2 modIndex (r1.1 * K.modulatorMultiplier)
    Channel.finish { ch with op1 := r1.2, op2 := r2.2 } r1.1 0 r2.1 [0, 1]
  | 1 =>
    if ch.op1.stage = .off ∧ ch.op2.stage = .off then ((0, 0), ch, []) else
    let r1 := opNext 0 ch.op1 modIndex ch.feedbackOut1
    let r2 := opNext 1 ch.op2 modIndex 0
    Channel.finish { ch with op1 := r1.2, op2 := r2.2 } r1.1 0 (r1.1 + r2.1) [0, 1]
  | 2 =>
    if ch.op1.stage = .off ∧ ch.op2.stage = .off ∧
        ch.op3.stage = .off ∧ ch.op4.stage = .off then ((0, 0), ch, []) else
    let r1 := opNext 0 ch.op1 modIndex ch.feedbackOut1
    let r2 := opNext 1 ch.op2 modIndex 0
    let r3 := opNext 2 ch.op3 modIndex ch.feedbackOut3
    let r4 := opNext 3 ch.op4 modIndex 0
    Channel.finish { ch with op1 := r1.2, op2 := r2.2, op3 := r3.2, op4 := r4.2 }
      r1.1 r3.1 (r1.1 + r2.1 + r3.1 + r4.1) [0, 1, 2, 3]
  | 3 =>
    if ch.op4.stage = .off then ((0, 0), ch, []) else
    let r1 := opNext 0 ch.op1 modIndex ch.feedbackOut1
    let r2 := opNext 1 ch.op2 modIndex 0
    let r3 := opNext 2 ch.op3 modIndex (r2.1 * K.modulatorMultiplier)
    let r4 := opNext 3 ch.op4 modIndex ((r1.1 + r3.1) * K.modulatorMultiplier)
    Channel.finish { ch with op1 := r1.2, op2 := r2.2, op3 := r3.2, op4 := r4.2 }
      r1.1 r3.1 r4.1 [0, 1, 2, 3]
  | 4 =>
    if ch.op4.stage = .off then ((0, 0), ch, []) else
    let r1 := opNext 0 ch.op1 modIndex ch.feedbackOut1
    let r2 := opNext 1 ch.op2 modIndex (r1.1 * K.modulatorMultiplier)
    let r3 := opNext 2 ch.op3 modIndex (r2.1 * K.modulatorMultiplier)
    let r4 := opNext 3 ch.op4 modIndex (r3.1 * K.modulatorMultiplier)
    Channel.finish { ch with op1 := r1.2, op2 := r2.2, op3 := r3.2, op4 := r4.2 }
      r1.1 r3.1 r4.1 [0, 1, 2, 3]
  | 5 =>
    if ch.op2.stage = .off ∧ ch.op4.stage = .off then ((0, 0), ch, []) else
    let r1 := opNext 0 ch.op1 modIndex ch.feedbackOut1
    let r2 := opNext 1 ch.op2 modIndex (r1.1 * K.modulatorMultiplier)
    let r3 := opNext 2 ch.op3 modIndex ch.feedbackOut3
    let r4 := opNext 3 ch.op4 modIndex (r3.1 * K.modulatorMultiplier)
    Channel.finish { ch with op1 := r1.2, op2 := r2.2, op3 := r3.2, op4 := r4.2 }
      r1.1 r3.1 (r2.1 + r4.1) [0, 1, 2, 3]
  | 6 =>
    if ch.op1.stage = .off ∧ ch.op4.stage = .off then ((0, 0), ch, []) else
    let r1 := opNext 0 ch.op1 modIndex ch.feedbackOut1
    let r2 := opNext 1 ch.op2 modIndex 0
    let r3 := opNext 2 ch.op3 modIndex (r2.1 * K.modulatorMultiplier)
    let r4 := opNext 3 ch.op4 modIndex (r3.1 * K.modulatorMultiplier)
    Channel.finish { ch with op1 := r1.2, op2 := r2.2, op3 := r3.2, op4 := r4.2 }
      r1.1 r3.1 (r1.1 + r4.1) [0, 1, 2, 3]
  | 7 =>
    if ch.op1.stage = .off ∧ ch.op3.stage = .off ∧ ch.op4.stage = .off then
      ((0, 0), ch, []) else
    let r1 := opNext 0 ch.op1 modIndex ch.feedbackOut1
    let r2 := opNext 1 ch.op2 modIndex 0
    let r3 := opNext 2 ch.op3 modIndex (r2.1 * K.modulatorMultiplier)
    let r4 := opNext 3 ch.op4 modIndex 0
    Channel.finish { ch with op1 := r1.2, op2 := r2.2, op3 := r3.2, op4 := r4.2 }
      r1.1 r3.1 (r1.1 + r3.1 + r4.1) [0, 1, 2, 3]
  | _ => Channel.finish ch 0 0 0 []

/-- The carrier sets claimed for each algorithm (operator numbering 1..4
mapped to indices 0..3): alg 0 carries op2; alg 1 ops 1,2; alg 2 all;
alg 3 and 4 op4; alg 5 ops 2,4; alg 6 ops 1,4; alg 7 ops 1,3,4. -/
def claimCarriers (alg : Nat) (i : Fin 4) : Bool :=
  match alg, i with
  | 0, 1 => true
  | 1, 0 => true | 1, 1 => true
  | 2, _ => true
  | 3, 3 => true
  | 4, 3 => true
  | 5, 1 => true | 5, 3 => true
  | 6, 0 => true | 6, 3 => true
  | 7, 0 => true | 7, 2 => true | 7, 3 => true
  | _, _ => false

/-- Select the operator of a channel by index. -/
def Channel.opAt (ch : Channel) : Fin 4 → Op
  | 0 => ch.op1
  | 1 => ch.op2
  | 2 => ch.op3
  | 3 => ch.op4

/-- A concrete channel used to exercise the claims: algorithm 0 with a
nonzero first feedback delay register and every operator in stage Off. -/
def exCh : Channel :=
  { alg := 0
    modIndexFrac64 := 3
    lfoFrequency := 5
    feedback1Prev := 2
    feedback1Curr := 1
    feedback3Prev := 0
    feedback3Curr := 0
    feedbackOut1 := 7
    feedbackOut3 := 0
    feedbackBlendPrev := 1/2
    feedbackBlendCurr := 1/2
    attenuationCoef := 1
    panCoefL := 1
    panCoefR := 1
    op1 := {}
    op2 := {}
    op3 := {}
    op4 := {} }

end Sim

namespace Ctl

/-- Slot flag: deferred release while the sustain pedal is down. -/
def flagSustain : Nat := 0x02

/-- Slot flag: vibrato (modulation wheel at or above the threshold). -/
def flagVibrato : Nat := 0x04

/-- Slot flag: the slot is unassigned. -/
def flagFree : Nat := 0x80

/-- Modulation-wheel threshold above which vibrato is enabled. -/
def modThresh : Nat := 40

/-- Voice types of an instrument program (from the smaf library). -/
inductive VoiceType
  | fm
  | pcm
  | al
deriving DecidableEq

/-- Per-operator instrument parameters (the smaf `VoiceFM` operator block,
restricted to the fields `controller.go` reads). -/
structure OpParams where
  eam : Bool := false
  evb : Bool := false
  ksr : Bool := false
  xof : Bool := false
  dam : Nat := 0
  dvb : Nat := 0
  dt : Nat := 0
  ksl : Nat := 0
  ws : Nat := 0
  multi : Nat := 0
  fb : Nat := 0
  ar : Nat := 0
  dr : Nat := 0
  sl : Nat := 0
  sr : Nat := 0
  rr : Nat := 0
  tl : Nat := 0
deriving DecidableEq

/-- Channel-level instrument parameters plus the four operator blocks. -/
structure FmVoice where
  alg : Nat := 0
  lfo : Nat := 0
  panpot : Nat := 0
  bo : Nat := 0
  drumKey : Nat := 0
  op0 : OpParams := {}
  op1 : OpParams := {}
  op2 : OpParams := {}
  op3 : OpParams := {}
deriving DecidableEq

/-- An instrument program (smaf `VM35VoicePC`, the fields the controller
reads). -/
structure Program where
  bankMsb : Nat := 0
  bankLsb : Nat := 0
  pc : Nat := 0
  drumNote : Nat := 0
  voiceType : VoiceType := .fm
  fmVoice : FmVoice := {}
deriving DecidableEq

/-- Per-MIDI-channel controller state.  The `uint8` fields are naturals
kept below 256 by the explicit conversions at every write; `pitchSens` and
`rpn` are `uint16`, kept below 65536 likewise. -/
structure MidiChannelState where
  bankLSB : Nat := 0
  bankMSB : Nat := 0
  pc : Nat := 0
  volume : Nat := 0
  expression : Nat := 0
  pan : Nat := 0
  pitch : Int := 0
  sustain : Nat := 0
  modulation : Nat := 0
  pitchSens : Nat := 0
  rpn : Nat := 0
deriving DecidableEq

/-- A controller slot binding a synthesis channel to a live MIDI note.
The Go zero value has every numeric field 0, no instrument, and the zero
time. -/
structure Slot where
  midiChannel : Int := 0
  note : Int := 0
  realnote : Int := 0
  flags : Nat := 0
  finetune : Int := 0
  pitch : Int := 0
  velocity : Int := 0
  instrument : Option Program := none
  time : Nat := 0
deriving DecidableEq

/-- The controller: the voice libraries, the 16 MIDI-channel states
(modelled as a total map over the channel number), and the slot table. -/
structure Controller where
  libraries : List (List Program)
  midiChannelStates : Nat → MidiChannelState
  slots : List Slot

/-- The Go `uint8(v)` conversion of an `int`. -/
def u8 (v : Int) : Nat := (v % 256).toNat

/-- The Go `uint16(v)` conversion of an `int`. -/
def u16 (v : Int) : Nat := (v % 65536).toNat

/-- The Go `int8(v)` conversion of an `int`. -/
def i8 (v : Int) : Int := (v + 128) % 256 - 128

/-- Channel-level registers of the register-write interface. -/
inductive ChannelReg
  | KON
  | BLOCK
  | FNUM
  | ALG
  | LFO
  | PANPOT
  | CHPAN
  | VOLUME
  | EXPRESSION
  | BO
deriving DecidableEq

/-- Operator-level registers of the register-write interface. -/
inductive OpReg
  | EAM
  | EVB
  | DAM
  | DVB
  | DT
  | KSL
  | KSR
  | WS
  | MULT
  | FB
  | AR
  | DR
  | SL
  | SR
  | RR
  | TL
  | XOF
deriving DecidableEq

/-- One register write observed on the chip interface: `WriteChannel`,
`WriteOperator` or `WriteTL`. -/
inductive RegWrite
  | ch (channelID : Nat) (reg : ChannelReg) (v : Int)
  | op (channelID opIdx : Nat) (reg : OpReg) (v : Int)
  | tl (channelID opIdx : Nat) (carrierTL modulatorTL : Int)
deriving DecidableEq

/-- Test whether an event is the key-off write `WriteChannel(j, KON, 0)`. -/
def isKonOff (j : Nat) : RegWrite → Bool
  | .ch c .KON v => c == j && v == 0
  | _ => false

/-- Number of key-off writes (`WriteChannel(j, KON, 0)`) for slot `j` in a
trace; used to state that a slot is released exactly once. -/
def konOffCount (j : Nat) (t : List RegWrite) : Nat :=
  (t.filter (isKonOff j)).length

/-- Default slot used for out-of-range indexing in the model (Go would
panic there; every theorem indexes in range). -/
def dfltSlot : Slot := {}

/-- Default program for out-of-range indexing in the model. -/
def dfltProgram : Program := {}

/-- The slot table entry at an index. -/
def slotAt (ctrl : Controller) (i : Nat) : Slot := ctrl.slots.getD i dfltSlot

/-- Replace one MIDI-channel state. -/
def setMidiState (ctrl : Controller) (midich : Nat) (s : MidiChannelState) :
    Controller :=
  { ctrl with midiChannelStates := Function.update ctrl.midiChannelStates midich s }

/-- The 128-entry velocity table from `controller.go`. -/
def velocitytable : List Nat :=
  [0, 1, 3, 5, 6, 8, 10, 11,
   13, 14, 16, 17, 19, 20, 22, 23,
   25, 26, 27, 29, 30, 32, 33, 34,
   36, 37, 39, 41, 43, 45, 47, 49,
   50, 52, 54, 55, 57, 59, 60, 61,
   63, 64, 66, 67, 68, 69, 71, 72,
   73, 74, 75, 76, 77, 79, 80, 81,
   82, 83, 84, 84, 85, 86, 87, 88,
   89, 90, 91, 92, 92, 93, 94, 95,
   96, 96, 97, 98, 99, 99, 100, 101,
   101, 102, 103, 103, 104, 105, 105, 106,
   107, 107, 108, 109, 109, 110, 110, 111,
   112, 112, 113, 113, 114, 114, 115, 115,
   116, 117, 117, 118, 118, 119, 119, 120,
   120, 121, 121, 122, 122, 123, 123, 123,
   124, 124, 125, 125, 126, 126, 127, 127]

/-- `ymfConvertVelocity` from `controller.go`:
`0x3f - ((0x3f - data) * velocitytable[velocity] >> 7)` (the Go `>>` on a
signed int is an arithmetic shift, i.e. floor division by 128). -/
def ymfConvertVelocity (data velocity : Int) : Int :=
  let r : Int := (velocitytable.getD velocity.toNat 0 : Nat)
  0x3f - Int.fdiv ((0x3f - data) * r) 128

/-- Go `bool2int`. -/
def bool2int (b : Bool) : Int := if b then 1 else 0

/-- `ymfWriteSlotAllOps`: the same operator register written on all four
operators of a slot. -/
def allOps (reg : OpReg) (slotID : Nat) (data : Int) : List RegWrite :=
  [.op slotID 0 reg data, .op slotID 1 reg data,
   .op slotID 2 reg data, .op slotID 3 reg data]

/-- `ymfWriteSlotEachOps`: one operator register written with a separate
value per operator. -/
def eachOps (reg : OpReg) (slotID : Nat) (d1 d2 d3 d4 : Int) : List RegWrite :=
  [.op slotID 0 reg d1, .op slotID 1 reg d2,
   .op slotID 2 reg d3, .op slotID 3 reg d4]

/-- The Go arithmetic right shift `x >> uint(s)` on a 64-bit int: a shift
count converted from a negative int wraps to at least 64, which drains the
value to 0 (or -1 for a negative operand); otherwise it is floor division
by `2 ^ s`. -/
def goShr64 (x s : Int) : Int :=
  if s < 0 ∨ 64 ≤ s then (if x < 0 then -1 else 0)
  else Int.fdiv x (2 ^ s.toNat)

/-- The fnum renormalization loop of `writeFrequency`: while `1024 < fnum`
halve fnum and increment block. -/
def renormLoop (block fnum : Int) : Int × Int :=
  if h : 1024 < fnum then renormLoop (block + 1) (Int.fdiv fnum 2)
  else (block, fnum)
termination_by fnum.toNat
decreasing_by
  have h2 : Int.fdiv fnum 2 = fnum / 2 := Int.fdiv_eq_ediv fnum (by norm_num)
  rw [h2, Int.toNat_lt_toNat (by omega)]
  omega

/-- The integer part of `writeFrequency` from `controller.go`, as a
function of the note and of `v = int(freq * ymfdata.FNUMCoef)` (the only
floating-point intermediate): `block = note / 12` truncated toward zero
and clamped above at 7, `fnum = v >> uint(block - 1)`, the negative clamp,
the renormalization loop, and the final clamp of block into [0, 7].
Returns `(fnum, block)` as written to the registers. -/
def fnumBlockOf (note v : Int) : Int × Int :=
  let block0 := Int.tdiv note 12
  let block1 := if 7 < block0 then 7 else block0
  let fnum0 := goShr64 v (block1 - 1)
  let bf :=
    if fnum0 < 0 then (block1, 0)
    else renormLoop block1 fnum0
  let block2 := if bf.1 < 0 then 0 else if 7 < bf.1 then 7 else bf.1
  (bf.2, block2)

/-- `writeFrequency` from `controller.go`: write FNUM, then BLOCK, then
KON (1 when keying on, else 0).  `F note pitch` abstracts the
floating-point `int(freq * ymfdata.FNUMCoef)`. -/
def writeFrequency (F : Int → Int → Int) (slotID : Nat) (note pitch : Int)
    (keyon : Bool) : List RegWrite :=
  let fb := fnumBlockOf note (F note pitch)
  [.ch slotID .FNUM fb.1, .ch slotID .BLOCK fb.2,
   .ch slotID .KON (if keyon then 1 else 0)]

/-- The slot-local part of `releaseSlot` (`killed = false`): key the slot
off via `writeFrequency`, unbind it (`midiChannel = -1`), stamp the time
and set the Free flag. -/
def releaseSlotS (F : Int → Int → Int) (now : Nat) (slotID : Nat) (s : Slot) :
    Slot × List RegWrite :=
  ({ s with midiChannel := -1, time := now, flags := flagFree },
   writeFrequency F slotID s.realnote s.pitch false)

/-- The extra writes of a killed release: SL=0, RR=15 (fastest), KSL=0 and
TL=0x3f (silent) on all four operators. -/
def killWrites (slotID : Nat) : List RegWrite :=
  allOps .SL slotID 0 ++ allOps .RR slotID 15 ++
    allOps .KSL slotID 0 ++ allOps .TL slotID 0x3f

/-- `releaseSlot` from `controller.go`. -/
def releaseSlot (F : Int → Int → Int) (now : Nat) (ctrl : Controller)
    (slotID : Nat) (killed : Bool) : Controller × List RegWrite :=
  let r := releaseSlotS F now slotID (slotAt ctrl slotID)
  ({ ctrl with slots := ctrl.slots.set slotID r.1 },
   r.2 ++ if killed then killWrites slotID else [])

/-- An ascending `for i, slot := range ctrl.slots` loop in which iteration
`i` reads and replaces only slot `i` and appends register writes. -/
def slotLoop (step : Nat → Slot → Slot × List RegWrite) :
    Nat → List Slot → List Slot × List RegWrite
  | _, [] => ([], [])
  | i, s :: rest =>
    ((step i s).1 :: (slotLoop step (i + 1) rest).1,
     (step i s).2 ++ (slotLoop step (i + 1) rest).2)

/-- `writeModulation` from `controller.go`: EVB per operator is the
instrument's Evb flag OR-ed with the vibrato state. -/
def writeModulation (slotID : Nat) (instr : Program) (state : Bool) :
    List RegWrite :=
  let o := instr.fmVoice
  eachOps .EVB slotID
    (bool2int (o.op0.evb || state)) (bool2int (o.op1.evb || state))
    (bool2int (o.op2.evb || state)) (bool2int (o.op3.evb || state))

/-- `ymfWriteVelocity` from `controller.go`: per operator, `WriteTL` with
the velocity-converted carrier TL and the raw modulator TL. -/
def ymfWriteVelocity (slotID : Nat) (velocity : Int) (instr : Program) :
    List RegWrite :=
  let w := fun (i : Nat) (op : OpParams) =>
    RegWrite.tl slotID i (ymfConvertVelocity (op.tl : Int) velocity) (op.tl : Int)
  [w 0 instr.fmVoice.op0, w 1 instr.fmVoice.op1,
   w 2 instr.fmVoice.op2, w 3 instr.fmVoice.op3]

/-- The 17 per-operator writes of `ymfWriteInstrument`. -/
def opWrites (slotID i : Nat) (op : OpParams) : List RegWrite :=
  [.op slotID i .EAM (bool2int op.eam), .op slotID i .EVB (bool2int op.evb),
   .op slotID i .DAM (op.dam : Int), .op slotID i .DVB (op.dvb : Int),
   .op slotID i .DT (op.dt : Int), .op slotID i .KSL (op.ksl : Int),
   .op slotID i .KSR (bool2int op.ksr), .op slotID i .WS (op.ws : Int),
   .op slotID i .MULT (op.multi : Int), .op slotID i .FB (op.fb : Int),
   .op slotID i .AR (op.ar : Int), .op slotID i .DR (op.dr : Int),
   .op slotID i .SL (op.sl : Int), .op slotID i .SR (op.sr : Int),
   .op slotID i .RR (op.rr : Int), .op slotID i .TL (op.tl : Int),
   .op slotID i .XOF (bool2int op.xof)]

/-- `ymfWriteInstrument` from `controller.go`: silence all operators
(TL=0x3f), write the 17 operator parameters per operator, then the ALG,
LFO, PANPOT and BO channel registers. -/
def ymfWriteInstrument (slotID : Nat) (instr : Program) : List RegWrite :=
  allOps .TL slotID 0x3f ++
    opWrites slotID 0 instr.fmVoice.op0 ++ opWrites slotID 1 instr.fmVoice.op1 ++
    opWrites slotID 2 instr.fmVoice.op2 ++ opWrites slotID 3 instr.fmVoice.op3 ++
    [.ch slotID .ALG (instr.fmVoice.alg : Int), .ch slotID .LFO (instr.fmVoice.lfo : Int),
     .ch slotID .PANPOT (instr.fmVoice.panpot : Int), .ch slotID .BO (instr.fmVoice.bo : Int)]

/-- `occupySlot` from `controller.go`: bind the slot to the note (with
vibrato flag per the channel's modulation), then write the instrument,
modulation, CHPAN, VOLUME, EXPRESSION, the velocity TLs, and finally the
frequency with key-on. -/
def occupySlot (F : Int → Int → Int) (now : Nat) (ctrl : Controller)
    (slotID : Nat) (midich : Nat) (note velocity : Int) (instr : Program) :
    Controller × List RegWrite :=
  let state := ctrl.midiChannelStates midich
  let s0 := slotAt ctrl slotID
  let flags0 : Nat := if modThresh ≤ state.modulation then flagVibrato else 0
  let note1 : Int := if instr.drumNote ≠ 0 then (instr.fmVoice.drumKey : Int) else note
  let note2 : Int := note1 + 2 - 12
  let s1 : Slot := { s0 with
    midiChannel := (midich : Int)
    note := note
    flags := flags0
    time := now
    velocity := velocity
    finetune := 0
    pitch := 0 + state.pitch
    instrument := some instr
    realnote := note2 }
  ({ ctrl with slots := ctrl.slots.set slotID s1 },
   ymfWriteInstrument slotID instr ++
     writeModulation slotID instr (flags0 &&& flagVibrato ≠ 0) ++
     [.ch slotID .CHPAN (state.pan : Int), .ch slotID .VOLUME (state.volume : Int),
      .ch slotID .EXPRESSION (state.expression : Int)] ++
     ymfWriteVelocity slotID velocity instr ++
     writeFrequency F slotID note2 (0 + state.pitch) true)

/-- The nested library/program search of `getInstrument`: the first
program whose (pc, bankLsb, bankMsb) matches the channel state and whose
drum note, when nonzero, equals the played note. -/
def lookupProgram (libs : List (List Program)) (s : MidiChannelState)
    (note : Int) : Option Program :=
  (libs.flatMap fun l => l).find? fun p =>
    (p.pc == s.pc && p.bankLsb == s.bankLSB && p.bankMsb == s.bankMSB) &&
      (p.drumNote == 0 || (p.drumNote : Int) == note)

/-- Overwrite the stored program number of one MIDI channel. -/
def setPC (ctrl : Controller) (midich : Nat) (pc : Nat) : Controller :=
  setMidiState ctrl midich { ctrl.midiChannelStates midich with pc := pc }

/-- `getInstrument` from `controller.go`: search the libraries; on a miss
with `bankMSB == 125` and stored program ≠ 1, permanently overwrite the
channel's program with 1 and retry; otherwise fall back to the first
program of the first library with `found = false`. -/
def getInstrument (ctrl : Controller) (midich : Nat) (note : Int) :
    (Program × Bool) × Controller :=
  match lookupProgram ctrl.libraries (ctrl.midiChannelStates midich) note with
  | some p => ((p, true), ctrl)
  | none =>
    if h : (ctrl.midiChannelStates midich).bankMSB = 125 ∧
        (ctrl.midiChannelStates midich).pc ≠ 1 then
      getInstrument (setPC ctrl midich 1) midich note
    else (((ctrl.libraries.headD []).headD dfltProgram, false), ctrl)
termination_by (if (ctrl.midiChannelStates midich).pc = 1 then 0 else 1)
decreasing_by
  simp [setPC, setMidiState, h.2]

/-- The first loop of `findFreeSlot`: index of the first slot carrying the
Free flag. -/
def firstFreeIdx : List Slot → Option Nat
  | [] => none
  | s :: rest =>
    if s.flags &&& flagFree ≠ 0 then some 0
    else (firstFreeIdx rest).map (· + 1)

/-- The second loop of `findFreeSlot`: fold the slots with the running
`(oldest, oldesttime)` accumulator, replacing it on a strictly earlier
timestamp. -/
def oldestAux : List Slot → Nat → Int × Nat → Int × Nat
  | [], _, acc => acc
  | s :: rest, i, acc =>
    if s.time < acc.2 then oldestAux rest (i + 1) ((i : Int), s.time)
    else oldestAux rest (i + 1) acc

/-- `findFreeSlot` from `controller.go` (its two unused parameters are
dropped): prefer the first Free slot; otherwise kill-release and return
the slot with the oldest timestamp strictly before `now`; `-1` when
neither exists. -/
def findFreeSlot (F : Int → Int → Int) (now : Nat) (ctrl : Controller) :
    Int × Controller × List RegWrite :=
  match firstFreeIdx ctrl.slots with
  | some i => ((i : Int), ctrl, [])
  | none =>
    let oldest := (oldestAux ctrl.slots 0 (-1, now)).1
    if 0 ≤ oldest then
      let r := releaseSlot F now ctrl oldest.toNat true
      (oldest, r.1, r.2)
    else (-1, ctrl, [])

/-- The per-slot action of the `NoteOff` loop. -/
def noteOffStep (F : Int → Int → Int) (now : Nat) (ch : Nat) (note : Int)
    (sus : Nat) (i : Nat) (s : Slot) : Slot × List RegWrite :=
  if s.midiChannel = (ch : Int) ∧ s.note = note then
    if sus < 0x40 then releaseSlotS F now i s
    else ({ s with flags := s.flags ||| flagSustain }, [])
  else (s, [])

/-- `NoteOff` from `controller.go`: for every slot bound to (ch, note),
release it when the channel's sustain is below 0x40, else mark it with the
sustain flag. -/
def NoteOff (F : Int → Int → Int) (now : Nat) (ctrl : Controller) (ch : Nat)
    (note : Int) : Controller × List RegWrite :=
  let sus := (ctrl.midiChannelStates ch).sustain
  let r := slotLoop (noteOffStep F now ch note sus) 0 ctrl.slots
  ({ ctrl with slots := r.1 }, r.2)

/-- The per-slot action of the `releaseSustain` loop. -/
def sustStep (F : Int → Int → Int) (now : Nat) (midich : Nat) (i : Nat)
    (s : Slot) : Slot × List RegWrite :=
  if s.midiChannel = (midich : Int) ∧ s.flags &&& flagSustain ≠ 0 then
    releaseSlotS F now i s
  else (s, [])

/-- `releaseSustain` from `controller.go`: release every slot of the MIDI
channel that carries the sustain flag. -/
def releaseSustain (F : Int → Int → Int) (now : Nat) (ctrl : Controller)
    (midich : Nat) : Controller × List RegWrite :=
  let r := slotLoop (sustStep F now midich) 0 ctrl.slots
  ({ ctrl with slots := r.1 }, r.2)

/-- The per-slot action of the modulation control-change loop. -/
def modStep (now : Nat) (midich : Nat) (value : Int) (i : Nat) (s : Slot) :
    Slot × List RegWrite :=
  if s.midiChannel = (midich : Int) then
    let flags := s.flags
    let s1 := { s with time := now }
    if (modThresh : Int) ≤ value then
      let s2 := { s1 with flags := s1.flags ||| flagVibrato }
      if s2.flags ≠ flags then
        (s2, writeModulation i (s2.instrument.getD dfltProgram) true)
      else (s2, [])
    else
      let s2 := { s1 with flags := s1.flags &&& 0xfffffffffffffffb }
      if s2.flags ≠ flags then
        (s2, writeModulation i (s2.instrument.getD dfltProgram) false)
      else (s2, [])
  else (s, [])

/-- The per-slot action of the volume/expression/pan mirror loops. -/
def mirrorStep (now : Nat) (midich : Nat) (reg : ChannelReg) (value : Int)
    (i : Nat) (s : Slot) : Slot × List RegWrite :=
  if s.midiChannel = (midich : Int) then
    ({ s with time := now }, [.ch i reg value])
  else (s, [])

/-- The per-slot action of the all-notes-off loop. -/
def notesOffStep (F : Int → Int → Int) (now : Nat) (midich : Nat) (sus : Nat)
    (i : Nat) (s : Slot) : Slot × List RegWrite :=
  if s.midiChannel = (midich : Int) then
    if sus < 0x40 then releaseSlotS F now i s
    else ({ s with flags := s.flags ||| flagSustain }, [])
  else (s, [])

/-- The per-slot action of the all-sounds-off loop. -/
def soundsOffStep (F : Int → Int → Int) (now : Nat) (midich : Nat) (i : Nat)
    (s : Slot) : Slot × List RegWrite :=
  if s.midiChannel = (midich : Int) then releaseSlotS F now i s else (s, [])

/-- `ControlChange` from `controller.go`, with the MIDI CC numbers written
out (0 bank MSB, 32 bank LSB, 1 modulation, 7 volume, 11 expression,
10 pan, 64 sustain pedal, 123 notes off, 120 sounds off, 101/100 RPN
select, 99/98 NRPN select, 6/38 data entry). -/
def ControlChange (F : Int → Int → Int) (now : Nat) (ctrl : Controller)
    (midich : Nat) (cc : Nat) (value : Int) : Controller × List RegWrite :=
  let st := ctrl.midiChannelStates midich
  if cc = 0 then (setMidiState ctrl midich { st with bankMSB := u8 value }, [])
  else if cc = 32 then (setMidiState ctrl midich { st with bankLSB := u8 value }, [])
  else if cc = 1 then
    let c1 := setMidiState ctrl midich { st with modulation := u8 value }
    let r := slotLoop (modStep now midich value) 0 c1.slots
    ({ c1 with slots := r.1 }, r.2)
  else if cc = 7 then
    let c1 := setMidiState ctrl midich { st with volume := u8 value }
    let r := slotLoop (mirrorStep now midich .VOLUME value) 0 c1.slots
    ({ c1 with slots := r.1 }, r.2)
  else if cc = 11 then
    let c1 := setMidiState ctrl midich { st with expression := u8 value }
    let r := slotLoop (mirrorStep now midich .EXPRESSION value) 0 c1.slots
    ({ c1 with slots := r.1 }, r.2)
  else if cc = 10 then
    let c1 := setMidiState ctrl midich { st with pan := u8 value }
    let r := slotLoop (mirrorStep now midich .CHPAN value) 0 c1.slots
    ({ c1 with slots := r.1 }, r.2)
  else if cc = 64 then
    let c1 := setMidiState ctrl midich { st with sustain := u8 value }
    if value < 0x40 then releaseSustain F now c1 midich else (c1, [])
  else if cc = 123 then
    let r := slotLoop (notesOffStep F now midich st.sustain) 0 ctrl.slots
    ({ ctrl with slots := r.1 }, r.2)
  else if cc = 120 then
    let r := slotLoop (soundsOffStep F now midich) 0 ctrl.slots
    ({ ctrl with slots := r.1 }, r.2)
  else if cc = 101 then
    (setMidiState ctrl midich
      { st with rpn := (st.rpn &&& 0x007f) ||| ((u16 value <<< 7) % 65536) }, [])
  else if cc = 100 then
    (setMidiState ctrl midich { st with rpn := (st.rpn &&& 0x3f80) ||| u16 value }, [])
  else if cc = 98 ∨ cc = 99 then
    (setMidiState ctrl midich { st with rpn := 0x3fff }, [])
  else if cc = 6 then
    if st.rpn = 0 then
      (setMidiState ctrl midich
        { st with pitchSens := (u16 value * 100 + st.pitchSens % 100) % 65536 }, [])
    else (ctrl, [])
  else if cc = 38 then
    if st.rpn = 0 then
      (setMidiState ctrl midich
        { st with pitchSens := (u16 value + st.pitchSens / 100 * 100) % 65536 }, [])
    else (ctrl, [])
  else (ctrl, [])

/-- `ProgramChange` from `controller.go`. -/
def ProgramChange (ctrl : Controller) (midich : Nat) (pc : Int) : Controller :=
  setMidiState ctrl midich { ctrl.midiChannelStates midich with pc := u8 pc }

/-- `NoteOn` from `controller.go`: velocity 0 delegates to `NoteOff`;
otherwise look the instrument up (a miss or a non-FM voice is a silent
return, any program-number fallback included), find a slot and occupy it. -/
def NoteOn (F : Int → Int → Int) (now : Nat) (ctrl : Controller) (ch : Nat)
    (note velocity : Int) : Controller × List RegWrite :=
  if velocity = 0 then NoteOff F now ctrl ch note
  else
    let gi := getInstrument ctrl ch note
    let instr := gi.1.1
    let c1 := gi.2
    if !gi.1.2 then (c1, [])
    else if instr.voiceType ≠ VoiceType.fm then (c1, [])
    else
      let fs := findFreeSlot F now c1
      if 0 ≤ fs.1 then
        let r := occupySlot F now fs.2.1 fs.1.toNat ch note velocity instr
        (r.1, fs.2.2 ++ r.2)
      else (fs.2.1, fs.2.2)

/-- `NewController` from `controller.go`: every slot and every MIDI
channel state is the Go zero value; the chip channel count is the length
of the fresh slot table. -/
def NewController (libs : List (List Program)) (n : Nat) : Controller :=
  { libraries := libs
    midiChannelStates := fun _ => {}
    slots := List.replicate n {} }

/-- Test whether an event is a KON channel write. -/
def isKONWrite : RegWrite → Bool
  | .ch _ .KON _ => true
  | _ => false

/-- A one-program library whose single program matches a fresh MIDI
channel state (bank 0/0, program 0, FM voice, no drum note). -/
def exLib : List (List Program) := [[{}]]

/-- A controller with one free slot over `exLib`, used to exercise the
claims on concrete inputs. -/
def exCtrl : Controller :=
  { libraries := exLib
    midiChannelStates := fun _ => {}
    slots := [{ flags := 0x80 }] }

/-- A controller with a single occupied (non-Free) slot over `exLib`,
used to exercise the voice-stealing path on a concrete input. -/
def exCtrlB : Controller :=
  { libraries := exLib
    midiChannelStates := fun _ => {}
    slots := [{}] }

/-- A controller with one slot sounding note 60 on MIDI channel 0. -/
def exCtrl6 : Controller :=
  { libraries := exLib
    midiChannelStates := fun _ => {}
    slots := [{ midiChannel := 0, note := 60 }] }

/-- A controller with one slot on MIDI channel 0 carrying the sustain
flag. -/
def exCtrl6b : Controller :=
  { libraries := exLib
    midiChannelStates := fun _ => {}
    slots := [{ midiChannel := 0, note := 60, flags := 0x02 }] }

/-- A controller whose MIDI channel state selects bank MSB 125 while the
library holds no matching program, so that `getInstrument` takes the
program-number fallback. -/
def exCtrl9 : Controller :=
  { libraries := exLib
    midiChannelStates := fun _ => { bankMSB := 125 }
    slots := [] }

end Ctl

/-- C1: for every channel and every call to `next()`, if every carrier
operator of the current algorithm (per the carrier set of that algorithm)
is in envelope stage Off, then `next()` returns exactly `(0, 0)`, no
operator is evaluated (the evaluation record is empty), and the only state
change is the LFO index advance performed before the switch. -/
theorem C1_next_early_exit (K : Sim.YmfConsts)
    (opNext : Fin 4 → Sim.Op → Int → ℚ → ℚ × Sim.Op) (ch : Sim.Channel)
    (halg : ch.alg ≤ 7)
    (hoff : ∀ i : Fin 4, Sim.claimCarriers ch.alg i = true →
      (ch.opAt i).stage = .off) :
    Sim.Channel.next K opNext ch =
      ((0, 0),
        { ch with modIndexFrac64 := (ch.modIndexFrac64 + ch.lfoFrequency) % 2 ^ 64 },
        []) := by
  have h1 : Sim.claimCarriers ch.alg 0 = true → ch.op1.stage = .off := hoff 0
  have h2 : Sim.claimCarriers ch.alg 1 = true → ch.op2.stage = .off := hoff 1
  have h3 : Sim.claimCarriers ch.alg 2 = true → ch.op3.stage = .off := hoff 2
  have h4 : Sim.claimCarriers ch.alg 3 = true → ch.op4.stage = .off := hoff 3
  clear hoff
  rcases ch with ⟨alg, mi, lfo, f1p, f1c, f3p, f3c, fo1, fo3, bp, bc, att, pl, pr, o1, o2, o3, o4⟩
  dsimp only at halg h1 h2 h3 h4 ⊢
  interval_cases alg
  · simp [Sim.Channel.next, h2 rfl]
  · simp [Sim.Channel.next, h1 rfl, h2 rfl]
  · simp [Sim.Channel.next, h1 rfl, h2 rfl, h3 rfl, h4 rfl]
  · simp [Sim.Channel.next, h4 rfl]
  · simp [Sim.Channel.next, h4 rfl]
  · simp [Sim.Channel.next, h2 rfl, h4 rfl]
  · simp [Sim.Channel.next, h1 rfl, h4 rfl]
  · simp [Sim.Channel.next, h1 rfl, h3 rfl, h4 rfl]

theorem C1_witness :
    (Sim.exCh.alg ≤ 7 ∧ ∀ i : Fin 4, Sim.claimCarriers Sim.exCh.alg i = true →
      (Sim.exCh.opAt i).stage = .off) ∧
    Sim.Channel.next ⟨4, 38⟩ (fun _ o _ _ => (1, o)) Sim.exCh =
      ((0, 0), { Sim.exCh with modIndexFrac64 :=
        (Sim.exCh.modIndexFrac64 + Sim.exCh.lfoFrequency) % 2 ^ 64 }, []) :=
  ⟨⟨by decide, by decide⟩,
    C1_next_early_exit ⟨4, 38⟩ (fun _ o _ _ => (1, o)) Sim.exCh (by decide) (by decide)⟩

/-- C2 counterexample: calling `setALG` with a value equal to the current
algorithm is not a no-op.  On a channel with algorithm 0 and
`feedback1Curr = 1`, `setALG 0` changes `feedback1Curr` to 0 (and likewise
clears `feedback1Prev`), so the state does change even though `reset()` is
skipped. -/
theorem C2_setALG_same_not_noop :
    Sim.exCh.alg = 0 ∧ Sim.exCh.feedback1Curr = 1 ∧
    (Sim.exCh.setALG 0).feedback1Curr = 0 ∧
    Sim.Channel.setALG Sim.exCh 0 ≠ Sim.exCh := by
  refine ⟨rfl, rfl, rfl, fun h => ?_⟩
  have := congrArg Sim.Channel.feedback1Curr h
  simp [Sim.Channel.setALG, Sim.exCh] at this

/-- C2 (amended): `setALG v` always clears the four feedback delay
registers `feedback1Prev`, `feedback1Curr`, `feedback3Prev`,
`feedback3Curr` and recomputes the modulator roles, whether or not `v`
equals the current algorithm.  When `v` equals the current algorithm no
`reset()` happens: `feedbackOut1`, `feedbackOut3`, the LFO index and every
operator's phase and envelope are unchanged.  When `v` differs, `reset()`
runs first, so additionally `feedbackOut1 = feedbackOut3 = 0`, the LFO
index is cleared, and every operator's phase and envelope are reset. -/
theorem C2_setALG_feedback_clear (ch : Sim.Channel) (v : Nat) :
    ((ch.setALG v).alg = v ∧
      (ch.setALG v).feedback1Prev = 0 ∧ (ch.setALG v).feedback1Curr = 0 ∧
      (ch.setALG v).feedback3Prev = 0 ∧ (ch.setALG v).feedback3Curr = 0) ∧
    (ch.alg = v →
      (ch.setALG v).feedbackOut1 = ch.feedbackOut1 ∧
      (ch.setALG v).feedbackOut3 = ch.feedbackOut3 ∧
      (ch.setALG v).modIndexFrac64 = ch.modIndexFrac64 ∧
      (∀ i : Fin 4, ((ch.setALG v).opAt i).phase = (ch.opAt i).phase ∧
        ((ch.setALG v).opAt i).stage = (ch.opAt i).stage ∧
        ((ch.setALG v).opAt i).envLevel = (ch.opAt i).envLevel)) ∧
    (ch.alg ≠ v →
      (ch.setALG v).feedbackOut1 = 0 ∧
      (ch.setALG v).feedbackOut3 = 0 ∧
      (ch.setALG v).modIndexFrac64 = 0 ∧
      (∀ i : Fin 4, ((ch.setALG v).opAt i).phase = 0 ∧
        ((ch.setALG v).opAt i).stage = .off ∧
        ((ch.setALG v).opAt i).envLevel = 0)) := by
  by_cases h : ch.alg = v
  · refine ⟨?_, fun _ => ?_, fun hne => absurd h hne⟩
    · refine ⟨?_, ?_, ?_, ?_, ?_⟩ <;> simp [Sim.Channel.setALG, h]
    · refine ⟨?_, ?_, ?_, fun i => ?_⟩
      · simp [Sim.Channel.setALG, h]
      · simp [Sim.Channel.setALG, h]
      · simp [Sim.Channel.setALG, h]
      · fin_cases i <;> simp [Sim.Channel.setALG, Sim.Channel.opAt, h]
  · refine ⟨?_, fun he => absurd he h, fun _ => ?_⟩
    · refine ⟨?_, ?_, ?_, ?_, ?_⟩ <;> simp [Sim.Channel.setALG, h]
    · refine ⟨?_, ?_, ?_, fun i => ?_⟩
      · simp [Sim.Channel.setALG, Sim.Channel.reset, h]
      · simp [Sim.Channel.setALG, Sim.Channel.reset, h]
      · simp [Sim.Channel.setALG, Sim.Channel.reset, h]
      · fin_cases i <;>
          simp [Sim.Channel.setALG, Sim.Channel.reset, Sim.Op.resetPE,
            Sim.Channel.opAt, h]


theorem C2_witness :
    (Sim.exCh.setALG 0).feedback1Curr = 0 ∧
    (Sim.exCh.setALG 0).feedbackOut1 = Sim.exCh.feedbackOut1 ∧
    (Sim.exCh.setALG 3).feedbackOut1 = 0 := by
  refine ⟨(C2_setALG_feedback_clear Sim.exCh 0).1.2.2.1, ?_, ?_⟩
  · exact ((C2_setALG_feedback_clear Sim.exCh 0).2.1 rfl).1
  · exact ((C2_setALG_feedback_clear Sim.exCh 3).2.2 (by decide)).1

/-- C3 counterexample: `ymfConvertVelocity(tl, 127)` is not `tl` — at
`tl = 0` it evaluates to 1, because `velocitytable[127] = 127` and
`63 - (63 * 127 >> 7) = 63 - 62 = 1`. -/
theorem C3_velocity127_not_id :
    Ctl.ymfConvertVelocity 0 127 = 1 ∧ Ctl.ymfConvertVelocity 0 127 ≠ 0 := by
  constructor <;> decide

/-- C3 (amended): for every `tl` in `0..0x3f`,
`ymfConvertVelocity(tl, 0) = 0x3f` (unchanged from the claim), and
`ymfConvertVelocity(tl, 127) = min (tl + 1) 0x3f` — that is `tl + 1`, one
more than the claimed `tl`, except at the ceiling `tl = 0x3f`. -/
theorem C3_velocity_mapping (tl : Nat) (htl : tl ≤ 0x3f) :
    Ctl.ymfConvertVelocity (tl : Int) 0 = 0x3f ∧
    Ctl.ymfConvertVelocity (tl : Int) 127 = min ((tl : Int) + 1) 0x3f := by
  revert htl
  revert tl
  decide

theorem C3_witness :
    (5 : Nat) ≤ 0x3f ∧ Ctl.ymfConvertVelocity ((5 : Nat) : Int) 0 = 0x3f ∧
      Ctl.ymfConvertVelocity ((5 : Nat) : Int) 127 = min (((5 : Nat) : Int) + 1) 0x3f :=
  ⟨by decide, (C3_velocity_mapping 5 (by decide)).1, (C3_velocity_mapping 5 (by decide)).2⟩

/-- C4: with the RPN register at 0, data-entry MSB `m` followed by LSB `l`
leaves `pitchSens = m*100 + l`; with RPN nonzero both data entries leave
`pitchSens` unchanged; CC 98 and CC 99 each set the RPN register to
0x3fff, after which a data entry is ignored. -/
theorem C4_rpn_data_entry (F : Int → Int → Int) (now : Nat)
    (ctrl : Ctl.Controller) (midich : Nat) (_hmid : midich < 16) (m l x : Int)
    (hm0 : 0 ≤ m) (hm : m ≤ 127) (hl0 : 0 ≤ l) (hl : l ≤ 127) :
    ((ctrl.midiChannelStates midich).rpn = 0 →
      (((Ctl.ControlChange F now (Ctl.ControlChange F now ctrl midich 6 m).1
          midich 38 l).1).midiChannelStates midich).pitchSens =
        m.toNat * 100 + l.toNat) ∧
    ((ctrl.midiChannelStates midich).rpn ≠ 0 →
      (((Ctl.ControlChange F now ctrl midich 6 m).1).midiChannelStates midich).pitchSens =
          (ctrl.midiChannelStates midich).pitchSens ∧
      (((Ctl.ControlChange F now ctrl midich 38 l).1).midiChannelStates midich).pitchSens =
          (ctrl.midiChannelStates midich).pitchSens) ∧
    ((((Ctl.ControlChange F now ctrl midich 98 x).1).midiChannelStates midich).rpn = 0x3fff ∧
      (((Ctl.ControlChange F now ctrl midich 99 x).1).midiChannelStates midich).rpn = 0x3fff) ∧
    ((((Ctl.ControlChange F now (Ctl.ControlChange F now ctrl midich 98 x).1
        midich 6 m).1).midiChannelStates midich).pitchSens =
      (ctrl.midiChannelStates midich).pitchSens) := by
  refine ⟨fun h0 => ?_, fun hne => ⟨?_, ?_⟩, ⟨?_, ?_⟩, ?_⟩
  · have hm' : m % 65536 = m := by omega
    have hl' : l % 65536 = l := by omega
    simp only [Ctl.ControlChange, Ctl.setMidiState, Ctl.u16, hm', hl']
    norm_num [h0, Function.update_same]
    set ps := (ctrl.midiChannelStates midich).pitchSens with hps
    have e2 : (m.toNat * 100 + ps % 100) % 65536 = m.toNat * 100 + ps % 100 := by
      omega
    rw [e2]
    have e3 : (m.toNat * 100 + ps % 100) / 100 = m.toNat := by omega
    rw [e3]
    omega
  · simp only [Ctl.ControlChange, Ctl.setMidiState, Ctl.u16]
    norm_num [hne]
  · simp only [Ctl.ControlChange, Ctl.setMidiState, Ctl.u16]
    norm_num [hne]
  · simp only [Ctl.ControlChange, Ctl.setMidiState]
    norm_num [Function.update_same]
  · simp only [Ctl.ControlChange, Ctl.setMidiState]
    norm_num [Function.update_same]
  · simp only [Ctl.ControlChange, Ctl.setMidiState]
    norm_num [Function.update_same]

theorem C4_witness :
    ((0 : Nat) < 16 ∧ (0 : Int) ≤ 2 ∧ (2 : Int) ≤ 127 ∧ (0 : Int) ≤ 27 ∧
      (27 : Int) ≤ 127 ∧ ((Ctl.NewController Ctl.exLib 0).midiChannelStates 0).rpn = 0) ∧
    (((Ctl.ControlChange (fun _ _ => 0) 0
        (Ctl.ControlChange (fun _ _ => 0) 0 (Ctl.NewController Ctl.exLib 0) 0 6 2).1
        0 38 27).1).midiChannelStates 0).pitchSens = 227 := by
  refine ⟨⟨by decide, by decide, by decide, by decide, by decide, rfl⟩, ?_⟩
  have h := (C4_rpn_data_entry (fun _ _ => 0) 0 (Ctl.NewController Ctl.exLib 0) 0
      (by decide) 2 27 0 (by decide) (by decide) (by decide) (by decide)).1 rfl
  simpa using h

/-- On a nonnegative fnum the renormalization loop of `writeFrequency`
keeps fnum nonnegative and stops at or below 1024 (the loop condition is
the strict `1024 < fnum`). -/
theorem renormLoop_range : ∀ (n : Nat) (block fnum : Int), fnum.toNat ≤ n →
    0 ≤ fnum →
    0 ≤ (Ctl.renormLoop block fnum).2 ∧ (Ctl.renormLoop block fnum).2 ≤ 1024 := by
  intro n
  induction n with
  | zero =>
    intro block fnum hn h0
    rw [Ctl.renormLoop, dif_neg (by omega)]
    constructor <;> omega
  | succ n ih =>
    intro block fnum hn h0
    rw [Ctl.renormLoop]
    by_cases h : 1024 < fnum
    · rw [dif_pos h]
      have hdiv : Int.fdiv fnum 2 = fnum / 2 := Int.fdiv_eq_ediv _ (by norm_num)
      rw [hdiv]
      exact ih (block + 1) (fnum / 2) (by omega) (by omega)
    · rw [dif_neg h]
      constructor <;> omega

/-- The fnum/block pair computed by `writeFrequency` lies in
`[0, 1024] × [0, 7]` for every note and every floating-point intermediate. -/
theorem fnumBlockOf_range (note v : Int) :
    0 ≤ (Ctl.fnumBlockOf note v).1 ∧ (Ctl.fnumBlockOf note v).1 ≤ 1024 ∧
    0 ≤ (Ctl.fnumBlockOf note v).2 ∧ (Ctl.fnumBlockOf note v).2 ≤ 7 := by
  have key : ∀ (b1 f0 : Int),
      0 ≤ (if f0 < 0 then (b1, (0 : Int)) else Ctl.renormLoop b1 f0).2 ∧
      (if f0 < 0 then (b1, (0 : Int)) else Ctl.renormLoop b1 f0).2 ≤ 1024 := by
    intro b1 f0
    by_cases h : f0 < 0
    · simp [h]
    · rw [if_neg h]
      exact renormLoop_range f0.toNat b1 f0 le_rfl (by omega)
  have hb : ∀ (x : Int),
      0 ≤ (if x < 0 then (0 : Int) else if 7 < x then 7 else x) ∧
      (if x < 0 then (0 : Int) else if 7 < x then 7 else x) ≤ 7 := by
    intro x
    constructor <;> (split_ifs <;> omega)
  simp only [Ctl.fnumBlockOf]
  exact ⟨(key _ _).1, (key _ _).2, (hb _).1, (hb _).2⟩

/-- C8 counterexample: the claimed range `fnum ∈ 0..1023` fails — the
renormalization loop runs only while `1024 < fnum`, so an intermediate
`int(freq*FNUMCoef) = 2048` at note 12 leaves `fnum = 1024` to be written
to the FNUM register. -/
theorem C8_fnum_1024_written :
    Ctl.writeFrequency (fun _ _ => 2048) 0 12 64 true =
      [Ctl.RegWrite.ch 0 .FNUM 1024, Ctl.RegWrite.ch 0 .BLOCK 2,
       Ctl.RegWrite.ch 0 .KON 1] ∧
    ¬((1024 : Int) ≤ 1023) := by
  have ht : Int.tdiv 12 12 = 1 := by decide
  have hshr : Ctl.goShr64 2048 0 = 2048 := by decide
  have hf : Int.fdiv 2048 2 = 1024 := by decide
  have h2 : Ctl.renormLoop 2 1024 = (2, 1024) := by
    rw [Ctl.renormLoop]
    norm_num
  have h1 : Ctl.renormLoop 1 2048 = (2, 1024) := by
    rw [Ctl.renormLoop, dif_pos (by norm_num), hf]
    norm_num [h2]
  refine ⟨?_, by norm_num⟩
  norm_num [Ctl.writeFrequency, Ctl.fnumBlockOf, ht, hshr, h1]

/-- C8 (amended): for every note and pitch input to `writeFrequency`, the
written FNUM value lies in `0..1024` (not `0..1023`: 1024 is attainable)
and the written BLOCK value lies in `0..7`. -/
theorem C8_fnum_block_ranges (F : Int → Int → Int) (slotID : Nat)
    (note pitch : Int) (keyon : Bool) :
    ∃ fnum block : Int,
      Ctl.writeFrequency F slotID note pitch keyon =
        [Ctl.RegWrite.ch slotID .FNUM fnum, Ctl.RegWrite.ch slotID .BLOCK block,
         Ctl.RegWrite.ch slotID .KON (if keyon then 1 else 0)] ∧
      0 ≤ fnum ∧ fnum ≤ 1024 ∧ 0 ≤ block ∧ block ≤ 7 :=
  ⟨(Ctl.fnumBlockOf note (F note pitch)).1, (Ctl.fnumBlockOf note (F note pitch)).2,
    rfl, (fnumBlockOf_range note (F note pitch)).1,
    (fnumBlockOf_range note (F note pitch)).2.1,
    (fnumBlockOf_range note (F note pitch)).2.2.1,
    (fnumBlockOf_range note (F note pitch)).2.2.2⟩

/-- C9: when the instrument lookup misses and the channel has
`bankMSB = 125` with stored program ≠ 1, `getInstrument` commits
`program := 1` into the controller state before retrying; the returned
controller is exactly the input with that one overwrite, the overwrite is
observable afterwards, and no later lookup on that channel mutates the
state again. -/
theorem C9_bank125_pc_overwrite (ctrl : Ctl.Controller) (midich : Nat)
    (note : Int) (_hmid : midich < 16)
    (hfail : Ctl.lookupProgram ctrl.libraries (ctrl.midiChannelStates midich) note = none)
    (hb : (ctrl.midiChannelStates midich).bankMSB = 125)
    (hpc : (ctrl.midiChannelStates midich).pc ≠ 1) :
    (Ctl.getInstrument ctrl midich note).2 = Ctl.setPC ctrl midich 1 ∧
    (((Ctl.getInstrument ctrl midich note).2).midiChannelStates midich).pc = 1 ∧
    ∀ note2 : Int,
      (Ctl.getInstrument (Ctl.getInstrument ctrl midich note).2 midich note2).2 =
        (Ctl.getInstrument ctrl midich note).2 := by
  have hpc1 : ((Ctl.setPC ctrl midich 1).midiChannelStates midich).pc = 1 := by
    simp [Ctl.setPC, Ctl.setMidiState]
  have hfix : ∀ (c : Ctl.Controller), (c.midiChannelStates midich).pc = 1 →
      ∀ nt : Int, (Ctl.getInstrument c midich nt).2 = c := by
    intro c hc nt
    rw [Ctl.getInstrument]
    split
    · rfl
    · rw [dif_neg fun hh => hh.2 hc]
  have hstep : Ctl.getInstrument ctrl midich note =
      Ctl.getInstrument (Ctl.setPC ctrl midich 1) midich note := by
    rw [Ctl.getInstrument, hfail]
    exact dif_pos ⟨hb, hpc⟩
  refine ⟨?_, ?_, fun note2 => ?_⟩
  · rw [hstep, hfix _ hpc1 note]
  · rw [hstep, hfix _ hpc1 note]
    exact hpc1
  · rw [hstep, hfix _ hpc1 note, hfix _ hpc1 note2]

theorem C9_witness :
    ((0 : Nat) < 16 ∧
      Ctl.lookupProgram Ctl.exCtrl9.libraries (Ctl.exCtrl9.midiChannelStates 0) 60 = none ∧
      (Ctl.exCtrl9.midiChannelStates 0).bankMSB = 125 ∧
      (Ctl.exCtrl9.midiChannelStates 0).pc ≠ 1) ∧
    (((Ctl.getInstrument Ctl.exCtrl9 0 60).2).midiChannelStates 0).pc = 1 :=
  ⟨⟨by decide, by decide, rfl, by decide⟩,
    (C9_bank125_pc_overwrite Ctl.exCtrl9 0 60 (by decide) (by decide) rfl
      (by decide)).2.1⟩

/-- Decomposition of the `occupySlot` write sequence: a KON-free run of
writes followed by FNUM, BLOCK and the single key-on KON write. -/
theorem occupy_decomp (F : Int → Int → Int) (now : Nat) (ctrl : Ctl.Controller)
    (slotID midich : Nat) (note velocity : Int) (instr : Ctl.Program) :
    ∃ pre fnum block,
      (Ctl.occupySlot F now ctrl slotID midich note velocity instr).2 =
        pre ++ [Ctl.RegWrite.ch slotID .FNUM fnum, Ctl.RegWrite.ch slotID .BLOCK block,
          Ctl.RegWrite.ch slotID .KON 1] ∧
      pre.filter Ctl.isKONWrite = [] :=
  ⟨_, _, _, rfl, rfl⟩

/-- C7: the register-write sequence that sounds a note ends with the KON
write.  In `occupySlot` every operator write and every channel write
(ALG, LFO, PANPOT, BO, CHPAN, VOLUME, EXPRESSION, the velocity TLs, FNUM,
BLOCK) precedes the single final KON write; `writeFrequency` writes FNUM,
then BLOCK, then KON; and when `NoteOn` sounds a note (instrument found,
FM voice, a slot available) its whole write sequence likewise ends with
that KON write. -/
theorem C7_kon_write_last (F : Int → Int → Int) (now : Nat)
    (ctrl : Ctl.Controller) (slotID midich ch : Nat) (note velocity : Int)
    (instr : Ctl.Program) :
    (∃ pre fnum block,
      (Ctl.occupySlot F now ctrl slotID midich note velocity instr).2 =
        pre ++ [Ctl.RegWrite.ch slotID .FNUM fnum, Ctl.RegWrite.ch slotID .BLOCK block,
          Ctl.RegWrite.ch slotID .KON 1] ∧
      pre.filter Ctl.isKONWrite = []) ∧
    ((Ctl.occupySlot F now ctrl slotID midich note velocity instr).2).filter
        Ctl.isKONWrite = [Ctl.RegWrite.ch slotID .KON 1] ∧
    (∀ note2 pitch2 : Int, ∀ keyon : Bool,
      Ctl.writeFrequency F slotID note2 pitch2 keyon =
        [Ctl.RegWrite.ch slotID .FNUM (Ctl.fnumBlockOf note2 (F note2 pitch2)).1,
         Ctl.RegWrite.ch slotID .BLOCK (Ctl.fnumBlockOf note2 (F note2 pitch2)).2,
         Ctl.RegWrite.ch slotID .KON (if keyon then 1 else 0)]) ∧
    (velocity ≠ 0 →
      Ctl.lookupProgram ctrl.libraries (ctrl.midiChannelStates ch) note = some instr →
      instr.voiceType = Ctl.VoiceType.fm →
      0 ≤ (Ctl.findFreeSlot F now ctrl).1 →
      ∃ pre2 fnum block,
        (Ctl.NoteOn F now ctrl ch note velocity).2 =
          pre2 ++ [Ctl.RegWrite.ch (Ctl.findFreeSlot F now ctrl).1.toNat .FNUM fnum,
            Ctl.RegWrite.ch (Ctl.findFreeSlot F now ctrl).1.toNat .BLOCK block,
            Ctl.RegWrite.ch (Ctl.findFreeSlot F now ctrl).1.toNat .KON 1]) := by
  refine ⟨occupy_decomp F now ctrl slotID midich note velocity instr, rfl,
    fun _ _ _ => rfl, fun hvel hlook hfm hfs => ?_⟩
  have hgi : Ctl.getInstrument ctrl ch note = ((instr, true), ctrl) := by
    rw [Ctl.getInstrument, hlook]
  have hnote : (Ctl.NoteOn F now ctrl ch note velocity).2 =
      (Ctl.findFreeSlot F now ctrl).2.2 ++
        (Ctl.occupySlot F now (Ctl.findFreeSlot F now ctrl).2.1
          (Ctl.findFreeSlot F now ctrl).1.toNat ch note velocity instr).2 := by
    simp [Ctl.NoteOn, hvel, hgi, hfm, hfs]
  obtain ⟨pre, f, b, he, -⟩ := occupy_decomp F now (Ctl.findFreeSlot F now ctrl).2.1
    (Ctl.findFreeSlot F now ctrl).1.toNat ch note velocity instr
  exact ⟨(Ctl.findFreeSlot F now ctrl).2.2 ++ pre, f, b, by
    rw [hnote, he, List.append_assoc]⟩

theorem C7_witness :
    ((1 : Int) ≠ 0 ∧
      Ctl.lookupProgram Ctl.exCtrl.libraries (Ctl.exCtrl.midiChannelStates 0) 60 =
        some {} ∧
      (({} : Ctl.Program)).voiceType = Ctl.VoiceType.fm ∧
      0 ≤ (Ctl.findFreeSlot (fun _ _ => 0) 1 Ctl.exCtrl).1) ∧
    ((Ctl.NoteOn (fun _ _ => 0) 1 Ctl.exCtrl 0 60 1).2).getLast? =
      some (Ctl.RegWrite.ch (Ctl.findFreeSlot (fun _ _ => 0) 1 Ctl.exCtrl).1.toNat
        .KON 1) := by
  refine ⟨⟨by decide, by decide, rfl, by decide⟩, ?_⟩
  obtain ⟨pre2, f, b, heq⟩ :=
    (C7_kon_write_last (fun _ _ => 0) 1 Ctl.exCtrl 0 0 0 60 1 {}).2.2.2
      (by decide) (by decide) rfl (by decide)
  rw [heq, show pre2 ++ [Ctl.RegWrite.ch (Ctl.findFreeSlot (fun _ _ => 0) 1
      Ctl.exCtrl).1.toNat .FNUM f, Ctl.RegWrite.ch (Ctl.findFreeSlot (fun _ _ => 0) 1
      Ctl.exCtrl).1.toNat .BLOCK b, Ctl.RegWrite.ch (Ctl.findFreeSlot (fun _ _ => 0) 1
      Ctl.exCtrl).1.toNat .KON 1] =
    (pre2 ++ [Ctl.RegWrite.ch (Ctl.findFreeSlot (fun _ _ => 0) 1 Ctl.exCtrl).1.toNat
      .FNUM f, Ctl.RegWrite.ch (Ctl.findFreeSlot (fun _ _ => 0) 1 Ctl.exCtrl).1.toNat
      .BLOCK b]) ++ [Ctl.RegWrite.ch (Ctl.findFreeSlot (fun _ _ => 0) 1
      Ctl.exCtrl).1.toNat .KON 1] by simp]
  exact List.getLast?_concat _

theorem konOffCount_append (j : Nat) (a b : List Ctl.RegWrite) :
    Ctl.konOffCount j (a ++ b) = Ctl.konOffCount j a + Ctl.konOffCount j b := by
  simp [Ctl.konOffCount, List.filter_append]

/-- A slot release emits exactly one key-off write, on its own slot. -/
theorem konOffCount_releaseSlotS (F : Int → Int → Int) (now k : Nat)
    (s : Ctl.Slot) (j : Nat) :
    Ctl.konOffCount j ((Ctl.releaseSlotS F now k s).2) = if k = j then 1 else 0 := by
  by_cases h : k = j
  · subst h
    simp [Ctl.releaseSlotS, Ctl.writeFrequency, Ctl.konOffCount, Ctl.isKonOff]
  · simp [Ctl.releaseSlotS, Ctl.writeFrequency, Ctl.konOffCount, Ctl.isKonOff, h]

theorem slotLoop_length (step : Nat → Ctl.Slot → Ctl.Slot × List Ctl.RegWrite) :
    ∀ (l : List Ctl.Slot) (i : Nat), ((Ctl.slotLoop step i l).1).length = l.length := by
  intro l
  induction l with
  | nil => intro i; rfl
  | cons s rest ih =>
    intro i
    simp only [Ctl.slotLoop, List.length_cons, ih (i + 1)]

/-- Iteration `k` of a slot loop transforms exactly slot `k` by its own
step; the result at index `k` depends only on the input at index `k`. -/
theorem slotLoop_getD (step : Nat → Ctl.Slot → Ctl.Slot × List Ctl.RegWrite) :
    ∀ (l : List Ctl.Slot) (i k : Nat), k < l.length →
      ((Ctl.slotLoop step i l).1).getD k Ctl.dfltSlot =
        (step (i + k) (l.getD k Ctl.dfltSlot)).1 := by
  intro l
  induction l with
  | nil => intro i k hk; simp at hk
  | cons s rest ih =>
    intro i k hk
    cases k with
    | zero => simp [Ctl.slotLoop]
    | succ k =>
      have hk' : k < rest.length := by simpa using hk
      have := ih (i + 1) k hk'
      simpa [Ctl.slotLoop, Nat.add_assoc, Nat.add_comm 1 k] using this

/-- Key-off count of a slot loop whose step emits exactly one key-off at
its own index when its guard holds: the loop emits exactly one key-off
for slot `j` when `j` is in range and its guard holds, none otherwise. -/
theorem slotLoop_konOff (j : Nat)
    (step : Nat → Ctl.Slot → Ctl.Slot × List Ctl.RegWrite)
    (g : Ctl.Slot → Prop) [DecidablePred g]
    (hstep : ∀ (k : Nat) (s : Ctl.Slot),
      Ctl.konOffCount j ((step k s).2) = if k = j ∧ g s then 1 else 0) :
    ∀ (l : List Ctl.Slot) (i : Nat),
      Ctl.konOffCount j ((Ctl.slotLoop step i l).2) =
        if i ≤ j ∧ j - i < l.length ∧ g (l.getD (j - i) Ctl.dfltSlot) then 1
        else 0 := by
  intro l
  induction l with
  | nil =>
    intro i
    rw [if_neg fun hh => Nat.not_lt_zero (j - i) hh.2.1]
    rfl
  | cons s rest ih =>
    intro i
    simp only [Ctl.slotLoop, List.length_cons]
    rw [konOffCount_append, hstep, ih (i + 1)]
    rcases Nat.lt_trichotomy i j with hij | heq | hij
    · have hn1 : ¬(i = j ∧ g s) := fun hh => absurd hh.1 (by omega)
      rw [if_neg hn1]
      have hji : j - i = (j - i - 1) + 1 := by omega
      have hgd : (s :: rest).getD (j - i) Ctl.dfltSlot =
          rest.getD (j - i - 1) Ctl.dfltSlot := by
        rw [hji]; rfl
      have hj1 : j - (i + 1) = j - i - 1 := by omega
      rw [Nat.zero_add, hj1, hgd]
      have hiff : (i + 1 ≤ j ∧ j - i - 1 < rest.length ∧
            g (rest.getD (j - i - 1) Ctl.dfltSlot)) ↔
          (i ≤ j ∧ j - i < rest.length + 1 ∧
            g (rest.getD (j - i - 1) Ctl.dfltSlot)) := by
        constructor
        · rintro ⟨h1, h2, h3⟩
          exact ⟨by omega, by omega, h3⟩
        · rintro ⟨h1, h2, h3⟩
          exact ⟨by omega, by omega, h3⟩
      rw [if_congr hiff rfl rfl]
    · subst heq
      have hn2 : ¬(i + 1 ≤ i ∧ i - (i + 1) < rest.length ∧
          g (rest.getD (i - (i + 1)) Ctl.dfltSlot)) :=
        fun hh => absurd hh.1 (by omega)
      rw [if_neg hn2, Nat.add_zero, Nat.sub_self]
      have hgd : (s :: rest).getD 0 Ctl.dfltSlot = s := rfl
      rw [hgd]
      have hiff : (i = i ∧ g s) ↔ (i ≤ i ∧ 0 < rest.length + 1 ∧ g s) := by
        constructor
        · rintro ⟨h1, h2⟩
          exact ⟨Nat.le_refl i, Nat.succ_pos _, h2⟩
        · rintro ⟨h1, h2, h3⟩
          exact ⟨rfl, h3⟩
      rw [if_congr hiff rfl rfl]
    · have hn1 : ¬(i = j ∧ g s) := fun hh => absurd hh.1 (by omega)
      have hn2 : ¬(i + 1 ≤ j ∧ j - (i + 1) < rest.length ∧
          g (rest.getD (j - (i + 1)) Ctl.dfltSlot)) :=
        fun hh => absurd hh.1 (by omega)
      have hn3 : ¬(i ≤ j ∧ j - i < rest.length + 1 ∧
          g ((s :: rest).getD (j - i) Ctl.dfltSlot)) :=
        fun hh => absurd hh.1 (by omega)
      rw [if_neg hn1, if_neg hn2, if_neg hn3]

/-- A slot loop whose every step emits no writes has an empty trace. -/
theorem slotLoop_trace_nil (step : Nat → Ctl.Slot → Ctl.Slot × List Ctl.RegWrite) :
    ∀ (l : List Ctl.Slot) (i : Nat),
      (∀ k, k < l.length → (step (i + k) (l.getD k Ctl.dfltSlot)).2 = []) →
      (Ctl.slotLoop step i l).2 = [] := by
  intro l
  induction l with
  | nil => intro i _; rfl
  | cons s rest ih =>
    intro i h
    have h1 : (step i s).2 = [] := by simpa using h 0 (Nat.succ_pos _)
    have h2 : (Ctl.slotLoop step (i + 1) rest).2 = [] := by
      refine ih (i + 1) fun k hk => ?_
      have := h (k + 1) (by simp only [List.length_cons]; omega)
      rw [show i + 1 + k = i + (k + 1) by omega]
      simpa using this
    simp [Ctl.slotLoop, h1, h2]

/-- Characterization of a successful first-Free-slot search: the returned
index is in range, carries the Free flag, and is the lowest such index. -/
theorem firstFreeIdx_some (l : List Ctl.Slot) :
    ∀ i, Ctl.firstFreeIdx l = some i →
      i < l.length ∧ (l.getD i Ctl.dfltSlot).flags &&& Ctl.flagFree ≠ 0 ∧
      ∀ k, k < i → (l.getD k Ctl.dfltSlot).flags &&& Ctl.flagFree = 0 := by
  induction l with
  | nil => intro i h; simp [Ctl.firstFreeIdx] at h
  | cons s rest ih =>
    intro i h
    simp only [Ctl.firstFreeIdx] at h
    by_cases hs : s.flags &&& Ctl.flagFree ≠ 0
    · rw [if_pos hs] at h
      cases h
      exact ⟨Nat.succ_pos _, hs, fun k hk => absurd hk (Nat.not_lt_zero k)⟩
    · rw [if_neg hs] at h
      cases hr : Ctl.firstFreeIdx rest with
      | none => rw [hr] at h; simp at h
      | some i' =>
        rw [hr] at h
        simp only [Option.map_some'] at h
        cases h
        obtain ⟨h1, h2, h3⟩ := ih i' hr
        refine ⟨by simp only [List.length_cons]; omega, h2, ?_⟩
        intro k hk
        cases k with
        | zero => exact not_not.mp hs
        | succ k => exact h3 k (by omega)

/-- When the first-Free-slot search fails, no slot carries the Free flag. -/
theorem firstFreeIdx_none (l : List Ctl.Slot) :
    Ctl.firstFreeIdx l = none →
    ∀ k, k < l.length → (l.getD k Ctl.dfltSlot).flags &&& Ctl.flagFree = 0 := by
  induction l with
  | nil => intro _ k hk; simp at hk
  | cons s rest ih =>
    intro h k hk
    simp only [Ctl.firstFreeIdx] at h
    by_cases hs : s.flags &&& Ctl.flagFree ≠ 0
    · rw [if_pos hs] at h; simp at h
    · rw [if_neg hs] at h
      cases k with
      | zero => exact not_not.mp hs
      | succ k =>
        have hr : Ctl.firstFreeIdx rest = none := by
          cases hr : Ctl.firstFreeIdx rest with
          | none => rfl
          | some x => rw [hr] at h; simp at h
        exact ih hr k (by simpa using hk)

/-- The running minimum of the oldest-slot fold never increases. -/
theorem oldestAux_snd_le (l : List Ctl.Slot) :
    ∀ (i : Nat) (acc : Int × Nat), (Ctl.oldestAux l i acc).2 ≤ acc.2 := by
  induction l with
  | nil => intro i acc; exact Nat.le_refl _
  | cons s rest ih =>
    intro i acc
    simp only [Ctl.oldestAux]
    by_cases h : s.time < acc.2
    · rw [if_pos h]
      exact Nat.le_trans (ih (i + 1) ((i : Int), s.time)) (Nat.le_of_lt h)
    · rw [if_neg h]
      exact ih (i + 1) acc

/-- The result of the oldest-slot fold is at most every visited slot's
timestamp. -/
theorem oldestAux_le_all (l : List Ctl.Slot) :
    ∀ (i : Nat) (acc : Int × Nat) (k : Nat), k < l.length →
      (Ctl.oldestAux l i acc).2 ≤ (l.getD k Ctl.dfltSlot).time := by
  induction l with
  | nil => intro i acc k hk; simp at hk
  | cons s rest ih =>
    intro i acc k hk
    simp only [Ctl.oldestAux]
    cases k with
    | zero =>
      show _ ≤ s.time
      by_cases h : s.time < acc.2
      · rw [if_pos h]
        exact oldestAux_snd_le rest (i + 1) ((i : Int), s.time)
      · rw [if_neg h]
        exact Nat.le_trans (oldestAux_snd_le rest (i + 1) acc) (by omega)
    | succ k =>
      by_cases h : s.time < acc.2
      · rw [if_pos h]
        exact ih (i + 1) _ k (by simpa using hk)
      · rw [if_neg h]
        exact ih (i + 1) acc k (by simpa using hk)

/-- The oldest-slot fold either keeps its accumulator or returns the index
and timestamp of some visited slot. -/
theorem oldestAux_cases (l : List Ctl.Slot) :
    ∀ (i : Nat) (acc : Int × Nat), Ctl.oldestAux l i acc = acc ∨
      ∃ k, k < l.length ∧ (Ctl.oldestAux l i acc).1 = ((i + k : Nat) : Int) ∧
        (Ctl.oldestAux l i acc).2 = (l.getD k Ctl.dfltSlot).time := by
  induction l with
  | nil => intro i acc; exact Or.inl rfl
  | cons s rest ih =>
    intro i acc
    simp only [Ctl.oldestAux]
    by_cases h : s.time < acc.2
    · rw [if_pos h]
      rcases ih (i + 1) ((i : Int), s.time) with heq | ⟨k, hk, h1, h2⟩
      · refine Or.inr ⟨0, Nat.succ_pos _, ?_, ?_⟩
        · rw [heq]; simp
        · rw [heq]
          simp [List.getD_cons_zero]
      · refine Or.inr ⟨k + 1, by simp only [List.length_cons]; omega, ?_, ?_⟩
        · rw [h1]; congr 1; omega
        · rw [h2]
          simp [List.getD_cons_succ]
    · rw [if_neg h]
      rcases ih (i + 1) acc with heq | ⟨k, hk, h1, h2⟩
      · exact Or.inl heq
      · refine Or.inr ⟨k + 1, by simp only [List.length_cons]; omega, ?_, ?_⟩
        · rw [h1]; congr 1; omega
        · rw [h2]
          simp [List.getD_cons_succ]

/-- When no slot is Free and every slot timestamp is strictly before
`now`, `findFreeSlot` kill-releases and returns a slot with the oldest
timestamp. -/
theorem findFreeSlot_steal (F : Int → Int → Int) (now : Nat)
    (ctrl : Ctl.Controller)
    (hfree : Ctl.firstFreeIdx ctrl.slots = none)
    (hne : ctrl.slots ≠ [])
    (htimes : ∀ k, k < ctrl.slots.length → (Ctl.slotAt ctrl k).time < now) :
    ∃ o, o < ctrl.slots.length ∧
      (∀ k, k < ctrl.slots.length →
        (Ctl.slotAt ctrl o).time ≤ (Ctl.slotAt ctrl k).time) ∧
      Ctl.findFreeSlot F now ctrl =
        ((o : Int),
          { ctrl with
            slots := ctrl.slots.set o (Ctl.releaseSlotS F now o (Ctl.slotAt ctrl o)).1 },
          (Ctl.releaseSlotS F now o (Ctl.slotAt ctrl o)).2 ++ Ctl.killWrites o) := by
  have hlen : 0 < ctrl.slots.length := by
    cases hc : ctrl.slots with
    | nil => exact absurd hc hne
    | cons a b => simp [hc]
  rcases oldestAux_cases ctrl.slots 0 (-1, now) with heq | ⟨k, hk, h1, h2⟩
  · exfalso
    have hle := oldestAux_le_all ctrl.slots 0 (-1, now) 0 hlen
    rw [heq] at hle
    exact absurd (htimes 0 hlen) (by simp only [Ctl.slotAt]; omega)
  · have h1' : (Ctl.oldestAux ctrl.slots 0 (-1, now)).1 = (k : Int) := by
      rw [h1]; norm_num
    refine ⟨k, hk, ?_, ?_⟩
    · intro k' hk'
      have := oldestAux_le_all ctrl.slots 0 (-1, now) k' hk'
      rw [h2] at this
      simpa [Ctl.slotAt] using this
    · simp only [Ctl.findFreeSlot, hfree]
      rw [h1']
      rw [if_pos (Int.natCast_nonneg k)]
      simp only [Ctl.releaseSlot, Int.toNat_natCast]
      rfl

/-- C5: slot allocation for a NoteOn.  (A) if some slot carries the Free
flag, `findFreeSlot` returns the lowest-indexed such slot with no register
writes; (B) otherwise (all timestamps being in the past) the slot with the
oldest `time` is chosen, it is first released with the kill writes
(SL=0, RR=15, KSL=0, TL=0x3f on all four operators, inside `killWrites`),
and a sounding NoteOn emits those writes before all occupation writes;
(C) with no slot at all, NoteOn changes nothing and writes nothing. -/
theorem C5_slot_allocation (F : Int → Int → Int) (now : Nat)
    (ctrl : Ctl.Controller) (ch : Nat) (note velocity : Int)
    (instr : Ctl.Program) :
    ((∃ k, k < ctrl.slots.length ∧
        (Ctl.slotAt ctrl k).flags &&& Ctl.flagFree ≠ 0) →
      ∃ i : Nat, Ctl.findFreeSlot F now ctrl = ((i : Int), ctrl, []) ∧
        i < ctrl.slots.length ∧
        (Ctl.slotAt ctrl i).flags &&& Ctl.flagFree ≠ 0 ∧
        ∀ k, k < i → (Ctl.slotAt ctrl k).flags &&& Ctl.flagFree = 0) ∧
    (Ctl.firstFreeIdx ctrl.slots = none → ctrl.slots ≠ [] →
      (∀ k, k < ctrl.slots.length → (Ctl.slotAt ctrl k).time < now) →
      ∃ o, o < ctrl.slots.length ∧
        (∀ k, k < ctrl.slots.length →
          (Ctl.slotAt ctrl o).time ≤ (Ctl.slotAt ctrl k).time) ∧
        Ctl.findFreeSlot F now ctrl =
          ((o : Int),
            { ctrl with
              slots := ctrl.slots.set o
                (Ctl.releaseSlotS F now o (Ctl.slotAt ctrl o)).1 },
            (Ctl.releaseSlotS F now o (Ctl.slotAt ctrl o)).2 ++ Ctl.killWrites o) ∧
        Ctl.killWrites o =
          Ctl.allOps .SL o 0 ++ Ctl.allOps .RR o 15 ++
            Ctl.allOps .KSL o 0 ++ Ctl.allOps .TL o 0x3f ∧
        (velocity ≠ 0 →
          Ctl.lookupProgram ctrl.libraries (ctrl.midiChannelStates ch) note =
            some instr →
          instr.voiceType = Ctl.VoiceType.fm →
          Ctl.NoteOn F now ctrl ch note velocity =
            ((Ctl.occupySlot F now
                { ctrl with
                  slots := ctrl.slots.set o
                    (Ctl.releaseSlotS F now o (Ctl.slotAt ctrl o)).1 }
                o ch note velocity instr).1,
              ((Ctl.releaseSlotS F now o (Ctl.slotAt ctrl o)).2 ++
                  Ctl.killWrites o) ++
                (Ctl.occupySlot F now
                  { ctrl with
                    slots := ctrl.slots.set o
                      (Ctl.releaseSlotS F now o (Ctl.slotAt ctrl o)).1 }
                  o ch note velocity instr).2))) ∧
    (ctrl.slots = [] → velocity ≠ 0 →
      Ctl.lookupProgram ctrl.libraries (ctrl.midiChannelStates ch) note =
        some instr →
      instr.voiceType = Ctl.VoiceType.fm →
      Ctl.NoteOn F now ctrl ch note velocity = (ctrl, [])) := by
  refine ⟨?_, ?_, ?_⟩
  · intro ⟨k, hk, hfreek⟩
    cases hf : Ctl.firstFreeIdx ctrl.slots with
    | none => exact absurd (firstFreeIdx_none ctrl.slots hf k hk) hfreek
    | some i =>
      obtain ⟨h1, h2, h3⟩ := firstFreeIdx_some ctrl.slots i hf
      exact ⟨i, by simp only [Ctl.findFreeSlot, hf], h1, h2, h3⟩
  · intro hfree hne htimes
    obtain ⟨o, ho, hmin, heq⟩ := findFreeSlot_steal F now ctrl hfree hne htimes
    refine ⟨o, ho, hmin, heq, rfl, fun hvel hlook hfm => ?_⟩
    have hgi : Ctl.getInstrument ctrl ch note = ((instr, true), ctrl) := by
      rw [Ctl.getInstrument, hlook]
    simp only [Ctl.NoteOn, if_neg hvel, hgi, hfm]
    rw [heq]
    simp [Int.toNat_natCast]
  · intro hnil hvel hlook hfm
    have hgi : Ctl.getInstrument ctrl ch note = ((instr, true), ctrl) := by
      rw [Ctl.getInstrument, hlook]
    have hfs : Ctl.findFreeSlot F now ctrl = (-1, ctrl, []) := by
      simp only [Ctl.findFreeSlot, hnil]
      rfl
    simp only [Ctl.NoteOn, if_neg hvel, hgi, hfm]
    rw [hfs]
    norm_num

theorem C5_witness :
    (∃ k, k < Ctl.exCtrl.slots.length ∧
      (Ctl.slotAt Ctl.exCtrl k).flags &&& Ctl.flagFree ≠ 0) ∧
    (Ctl.findFreeSlot (fun _ _ => 0) 1 Ctl.exCtrl).1 = 0 ∧
    (Ctl.findFreeSlot (fun _ _ => 0) 1 Ctl.exCtrl).2.2 = [] ∧
    (Ctl.firstFreeIdx Ctl.exCtrlB.slots = none ∧ Ctl.exCtrlB.slots ≠ [] ∧
      ∀ k, k < Ctl.exCtrlB.slots.length →
        (Ctl.slotAt Ctl.exCtrlB k).time < 1) ∧
    (Ctl.findFreeSlot (fun _ _ => 0) 1 Ctl.exCtrlB).1 = 0 ∧
    Ctl.NoteOn (fun _ _ => 0) 1
        { libraries := Ctl.exLib, midiChannelStates := fun _ => {}, slots := [] }
        0 60 1 =
      ({ libraries := Ctl.exLib, midiChannelStates := fun _ => {}, slots := [] },
        []) := by
  have hlenA : Ctl.exCtrl.slots.length = 1 := rfl
  have hlenB : Ctl.exCtrlB.slots.length = 1 := rfl
  obtain ⟨i, heq, hilen, -, -⟩ :=
    (C5_slot_allocation (fun _ _ => 0) 1 Ctl.exCtrl 0 60 1 {}).1
      ⟨0, by decide, by decide⟩
  have hi0 : i = 0 := by omega
  subst hi0
  obtain ⟨o, holen, -, heqB, -, -⟩ :=
    (C5_slot_allocation (fun _ _ => 0) 1 Ctl.exCtrlB 0 60 1 {}).2.1
      (by decide) (by decide) (by decide)
  have ho0 : o = 0 := by omega
  subst ho0
  refine ⟨⟨0, by decide, by decide⟩, by rw [heq]; norm_num, by rw [heq],
    ⟨by decide, by decide, by decide⟩, by rw [heqB]; norm_num, ?_⟩
  exact (C5_slot_allocation (fun _ _ => 0) 1
    { libraries := Ctl.exLib, midiChannelStates := fun _ => {}, slots := [] }
    0 60 1 {}).2.2 rfl (by decide) (by decide) rfl

/-- Per-slot key-off count of the `NoteOff` loop body. -/
theorem noteOffStep_konOff (F : Int → Int → Int) (now : Nat) (ch : Nat)
    (note : Int) (sus : Nat) (j k : Nat) (s : Ctl.Slot) :
    Ctl.konOffCount j ((Ctl.noteOffStep F now ch note sus k s).2) =
      if k = j ∧ ((s.midiChannel = (ch : Int) ∧ s.note = note) ∧ sus < 0x40)
      then 1 else 0 := by
  unfold Ctl.noteOffStep
  by_cases hm : s.midiChannel = (ch : Int) ∧ s.note = note
  · rw [if_pos hm]
    by_cases hs : sus < 0x40
    · rw [if_pos hs, konOffCount_releaseSlotS]
      by_cases hkj : k = j
      · rw [if_pos hkj, if_pos ⟨hkj, hm, hs⟩]
      · rw [if_neg hkj, if_neg fun hh => hkj hh.1]
    · rw [if_neg hs, if_neg fun hh => hs hh.2.2]
      rfl
  · rw [if_neg hm, if_neg fun hh => hm hh.2.1]
    rfl

/-- Per-slot key-off count of the `releaseSustain` loop body. -/
theorem sustStep_konOff (F : Int → Int → Int) (now : Nat) (midich : Nat)
    (j k : Nat) (s : Ctl.Slot) :
    Ctl.konOffCount j ((Ctl.sustStep F now midich k s).2) =
      if k = j ∧ (s.midiChannel = (midich : Int) ∧
          s.flags &&& Ctl.flagSustain ≠ 0)
      then 1 else 0 := by
  unfold Ctl.sustStep
  by_cases hm : s.midiChannel = (midich : Int) ∧ s.flags &&& Ctl.flagSustain ≠ 0
  · rw [if_pos hm, konOffCount_releaseSlotS]
    by_cases hkj : k = j
    · rw [if_pos hkj, if_pos ⟨hkj, hm⟩]
    · rw [if_neg hkj, if_neg fun hh => hkj hh.1]
  · rw [if_neg hm, if_neg fun hh => hm hh.2]
    rfl

/-- The `releaseSustain` loop body emits nothing on a non-matching slot. -/
theorem sustStep_snd_nil (F : Int → Int → Int) (now : Nat) (midich : Nat)
    (k : Nat) (s : Ctl.Slot)
    (h : ¬(s.midiChannel = (midich : Int) ∧ s.flags &&& Ctl.flagSustain ≠ 0)) :
    (Ctl.sustStep F now midich k s).2 = [] := by
  unfold Ctl.sustStep
  rw [if_neg h]

/-- After the `releaseSustain` loop body runs, the slot no longer matches
the release condition (a released slot is unbound, a skipped slot never
matched). -/
theorem sustStep_fst_not_match (F : Int → Int → Int) (now : Nat)
    (midich : Nat) (k : Nat) (s : Ctl.Slot) :
    ¬(((Ctl.sustStep F now midich k s).1).midiChannel = (midich : Int) ∧
      ((Ctl.sustStep F now midich k s).1).flags &&& Ctl.flagSustain ≠ 0) := by
  unfold Ctl.sustStep
  by_cases hc : s.midiChannel = (midich : Int) ∧ s.flags &&& Ctl.flagSustain ≠ 0
  · rw [if_pos hc]
    intro hh
    have := hh.1
    simp only [Ctl.releaseSlotS] at this
    omega
  · rw [if_neg hc]
    exact hc

/-- The sustain-pedal control change below 0x40: store the pedal value,
then run `releaseSustain`. -/
theorem controlChange64_eq (F : Int → Int → Int) (now : Nat)
    (c : Ctl.Controller) (midich : Nat) (v : Int) (hv : v < 0x40) :
    Ctl.ControlChange F now c midich 64 v =
      Ctl.releaseSustain F now
        (Ctl.setMidiState c midich
          { c.midiChannelStates midich with sustain := Ctl.u8 v }) midich := by
  simp only [Ctl.ControlChange]
  norm_num [hv]

/-- The sustain-pedal control change at or above 0x40: store the pedal
value only, with no register writes. -/
theorem controlChange64_high (F : Int → Int → Int) (now : Nat)
    (c : Ctl.Controller) (midich : Nat) (v : Int) (hv : ¬(v < 0x40)) :
    Ctl.ControlChange F now c midich 64 v =
      (Ctl.setMidiState c midich
        { c.midiChannelStates midich with sustain := Ctl.u8 v }, []) := by
  simp only [Ctl.ControlChange]
  norm_num [hv]

/-- Changing a MIDI-channel state leaves the slot table untouched. -/
theorem setMidiState_slots (c : Ctl.Controller) (m : Nat)
    (st : Ctl.MidiChannelState) : (Ctl.setMidiState c m st).slots = c.slots := rfl

/-- The trace of `releaseSustain` is the trace of its slot loop. -/
theorem releaseSustain_snd (F : Int → Int → Int) (now : Nat)
    (c : Ctl.Controller) (midich : Nat) :
    (Ctl.releaseSustain F now c midich).2 =
      (Ctl.slotLoop (Ctl.sustStep F now midich) 0 c.slots).2 := rfl

/-- The slot table after `releaseSustain` is the slot loop's result. -/
theorem releaseSustain_fst_slots (F : Int → Int → Int) (now : Nat)
    (c : Ctl.Controller) (midich : Nat) :
    ((Ctl.releaseSustain F now c midich).1).slots =
      (Ctl.slotLoop (Ctl.sustStep F now midich) 0 c.slots).1 := rfl

/-- C6: for a slot bound to `(ch, note)`: a NoteOff releases it when the
channel's sustain is below 0x40 (with exactly one key-off write for that
slot) and otherwise only sets its sustain flag (no key-off); a later
sustain-pedal control change below 0x40 releases every slot of that MIDI
channel carrying the sustain flag exactly once — one key-off write in that
call, and any further sustain-pedal change writes nothing. -/
theorem C6_noteoff_sustain (F : Int → Int → Int) (now : Nat)
    (ctrl : Ctl.Controller) (ch : Nat) (note : Int) (j : Nat)
    (_hch : ch < 16) (hj : j < ctrl.slots.length)
    (hmc : (Ctl.slotAt ctrl j).midiChannel = (ch : Int))
    (hnote : (Ctl.slotAt ctrl j).note = note) :
    ((ctrl.midiChannelStates ch).sustain < 0x40 →
      Ctl.slotAt (Ctl.NoteOff F now ctrl ch note).1 j =
        (Ctl.releaseSlotS F now j (Ctl.slotAt ctrl j)).1 ∧
      Ctl.konOffCount j ((Ctl.NoteOff F now ctrl ch note).2) = 1) ∧
    (0x40 ≤ (ctrl.midiChannelStates ch).sustain →
      Ctl.slotAt (Ctl.NoteOff F now ctrl ch note).1 j =
        { Ctl.slotAt ctrl j with
          flags := (Ctl.slotAt ctrl j).flags ||| Ctl.flagSustain } ∧
      Ctl.konOffCount j ((Ctl.NoteOff F now ctrl ch note).2) = 0) ∧
    (∀ (c2 : Ctl.Controller) (k : Nat) (v : Int), k < c2.slots.length →
      (Ctl.slotAt c2 k).midiChannel = (ch : Int) →
      (Ctl.slotAt c2 k).flags &&& Ctl.flagSustain ≠ 0 →
      v < 0x40 →
      Ctl.slotAt (Ctl.ControlChange F now c2 ch 64 v).1 k =
        (Ctl.releaseSlotS F now k (Ctl.slotAt c2 k)).1 ∧
      Ctl.konOffCount k ((Ctl.ControlChange F now c2 ch 64 v).2) = 1 ∧
      ∀ v2 : Int,
        (Ctl.ControlChange F now (Ctl.ControlChange F now c2 ch 64 v).1
          ch 64 v2).2 = []) := by
  refine ⟨fun hsus => ⟨?_, ?_⟩, fun hsus => ⟨?_, ?_⟩, ?_⟩
  · have hg := slotLoop_getD
      (Ctl.noteOffStep F now ch note ((ctrl.midiChannelStates ch).sustain))
      ctrl.slots 0 j hj
    simp only [Ctl.NoteOff, Ctl.slotAt]
    rw [hg]
    simp only [Nat.zero_add]
    unfold Ctl.noteOffStep
    rw [if_pos ⟨hmc, hnote⟩, if_pos hsus]
  · have hc := slotLoop_konOff j
      (Ctl.noteOffStep F now ch note ((ctrl.midiChannelStates ch).sustain))
      (fun s => (s.midiChannel = (ch : Int) ∧ s.note = note) ∧
        (ctrl.midiChannelStates ch).sustain < 0x40)
      (noteOffStep_konOff F now ch note ((ctrl.midiChannelStates ch).sustain) j)
      ctrl.slots 0
    simp only [Ctl.NoteOff]
    rw [hc, if_pos ⟨Nat.zero_le j, hj, ⟨⟨hmc, hnote⟩, hsus⟩⟩]
  · have hg := slotLoop_getD
      (Ctl.noteOffStep F now ch note ((ctrl.midiChannelStates ch).sustain))
      ctrl.slots 0 j hj
    simp only [Ctl.NoteOff, Ctl.slotAt]
    rw [hg]
    simp only [Nat.zero_add]
    unfold Ctl.noteOffStep
    rw [if_pos ⟨hmc, hnote⟩, if_neg (by omega)]
  · have hc := slotLoop_konOff j
      (Ctl.noteOffStep F now ch note ((ctrl.midiChannelStates ch).sustain))
      (fun s => (s.midiChannel = (ch : Int) ∧ s.note = note) ∧
        (ctrl.midiChannelStates ch).sustain < 0x40)
      (noteOffStep_konOff F now ch note ((ctrl.midiChannelStates ch).sustain) j)
      ctrl.slots 0
    simp only [Ctl.NoteOff]
    rw [hc, if_neg fun hh => by omega]
  · intro c2 k v hk hmc2 hfl2 hv
    rw [controlChange64_eq F now c2 ch v hv]
    refine ⟨?_, ?_, ?_⟩
    · have hg := slotLoop_getD (Ctl.sustStep F now ch) c2.slots 0 k hk
      rw [Nat.zero_add] at hg
      simp only [Ctl.slotAt]
      rw [releaseSustain_fst_slots, setMidiState_slots, hg]
      unfold Ctl.sustStep
      rw [if_pos ⟨hmc2, hfl2⟩]
    · have hc := slotLoop_konOff k (Ctl.sustStep F now ch)
        (fun s => s.midiChannel = (ch : Int) ∧
          s.flags &&& Ctl.flagSustain ≠ 0)
        (sustStep_konOff F now ch k) c2.slots 0
      rw [releaseSustain_snd, setMidiState_slots]
      rw [hc, if_pos ⟨Nat.zero_le k, hk, ⟨hmc2, hfl2⟩⟩]
    · intro v2
      by_cases hv2 : v2 < 0x40
      · rw [controlChange64_eq F now _ ch v2 hv2, releaseSustain_snd,
          setMidiState_slots, releaseSustain_fst_slots, setMidiState_slots]
        apply slotLoop_trace_nil
        intro k' hk'
        rw [slotLoop_length] at hk'
        have hg := slotLoop_getD (Ctl.sustStep F now ch) c2.slots 0 k' hk'
        rw [Nat.zero_add] at hg
        simp only [Nat.zero_add]
        rw [hg]
        exact sustStep_snd_nil F now ch _ _ (sustStep_fst_not_match F now ch k' _)
      · rw [controlChange64_high F now _ ch v2 hv2]

theorem C6_witness :
    ((0 : Nat) < 16 ∧ (0 : Nat) < Ctl.exCtrl6.slots.length ∧
      (Ctl.slotAt Ctl.exCtrl6 0).midiChannel = ((0 : Nat) : Int) ∧
      (Ctl.slotAt Ctl.exCtrl6 0).note = 60 ∧
      (Ctl.exCtrl6.midiChannelStates 0).sustain < 0x40) ∧
    Ctl.konOffCount 0 ((Ctl.NoteOff (fun _ _ => 0) 1 Ctl.exCtrl6 0 60).2) = 1 ∧
    ((0 : Nat) < Ctl.exCtrl6b.slots.length ∧
      (Ctl.slotAt Ctl.exCtrl6b 0).midiChannel = ((0 : Nat) : Int) ∧
      (Ctl.slotAt Ctl.exCtrl6b 0).flags &&& Ctl.flagSustain ≠ 0 ∧
      (0 : Int) < 0x40) ∧
    Ctl.konOffCount 0 ((Ctl.ControlChange (fun _ _ => 0) 1 Ctl.exCtrl6b 0 64 0).2) = 1 ∧
    (Ctl.ControlChange (fun _ _ => 0) 1
      (Ctl.ControlChange (fun _ _ => 0) 1 Ctl.exCtrl6b 0 64 0).1 0 64 0).2 = [] := by
  have h6 := C6_noteoff_sustain (fun _ _ => 0) 1 Ctl.exCtrl6 0 60 0 (by decide)
    (by decide) (by decide) (by decide)
  refine ⟨⟨by decide, by decide, by decide, by decide, by decide⟩,
    (h6.1 (by decide)).2, ⟨by decide, by decide, by decide, by decide⟩, ?_, ?_⟩
  · exact (h6.2.2 Ctl.exCtrl6b 0 0 (by decide) (by decide) (by decide)
      (by decide)).2.1
  · exact (h6.2.2 Ctl.exCtrl6b 0 0 (by decide) (by decide) (by decide)
      (by decide)).2.2 0

theorem getD_replicate {α : Type} (a d : α) :
    ∀ (n i : Nat), i < n → (List.replicate n a).getD i d = a := by
  intro n
  induction n with
  | zero => intro i hi; omega
  | succ n ih =>
    intro i hi
    cases i with
    | zero => rfl
    | succ i => exact ih i (by omega)

/-- A freshly constructed slot table has no Free flag anywhere. -/
theorem firstFreeIdx_replicate_dflt :
    ∀ n : Nat, Ctl.firstFreeIdx (List.replicate n ({} : Ctl.Slot)) = none := by
  intro n
  induction n with
  | zero => rfl
  | succ n ih =>
    show Ctl.firstFreeIdx (({} : Ctl.Slot) :: List.replicate n {}) = none
    simp only [Ctl.firstFreeIdx]
    rw [if_neg (by decide), ih]
    rfl

/-- The oldest-slot fold over zero-time slots keeps an accumulator whose
running minimum is already 0. -/
theorem oldestAux_replicate_keep :
    ∀ (m i : Nat) (b : Int),
      Ctl.oldestAux (List.replicate m ({} : Ctl.Slot)) i (b, 0) = (b, 0) := by
  intro m
  induction m with
  | zero => intro i b; rfl
  | succ m ih =>
    intro i b
    show Ctl.oldestAux (({} : Ctl.Slot) :: List.replicate m {}) i (b, 0) = (b, 0)
    simp only [Ctl.oldestAux]
    rw [if_neg (by decide)]
    exact ih (i + 1) b

/-- C10: in a freshly constructed controller no slot carries the Free
flag, so the first sounding NoteOn cannot take the free-slot path:
`findFreeSlot` falls through to oldest-timestamp stealing, kill-releases
slot 0 (whose kill writes are SL=0, RR=15, KSL=0, TL=0x3f on all four
operators), and the NoteOn then occupies slot 0. -/
theorem C10_fresh_steals_slot0 (F : Int → Int → Int) (now : Nat)
    (libs : List (List Ctl.Program)) (n : Nat) (hn : 0 < n) (hnow : 0 < now)
    (ch : Nat) (note velocity : Int) (instr : Ctl.Program)
    (hvel : velocity ≠ 0)
    (hlook : Ctl.lookupProgram libs ({} : Ctl.MidiChannelState) note = some instr)
    (hfm : instr.voiceType = Ctl.VoiceType.fm) :
    (∀ i, i < n → (Ctl.slotAt (Ctl.NewController libs n) i).flags = 0) ∧
    Ctl.firstFreeIdx (Ctl.NewController libs n).slots = none ∧
    Ctl.findFreeSlot F now (Ctl.NewController libs n) =
      ((0 : Int),
        { Ctl.NewController libs n with
          slots := (Ctl.NewController libs n).slots.set 0
            (Ctl.releaseSlotS F now 0 ({} : Ctl.Slot)).1 },
        (Ctl.releaseSlotS F now 0 ({} : Ctl.Slot)).2 ++ Ctl.killWrites 0) ∧
    Ctl.killWrites 0 = Ctl.allOps .SL 0 0 ++ Ctl.allOps .RR 0 15 ++
      Ctl.allOps .KSL 0 0 ++ Ctl.allOps .TL 0 0x3f ∧
    Ctl.NoteOn F now (Ctl.NewController libs n) ch note velocity =
      ((Ctl.occupySlot F now
          { Ctl.NewController libs n with
            slots := (Ctl.NewController libs n).slots.set 0
              (Ctl.releaseSlotS F now 0 ({} : Ctl.Slot)).1 }
          0 ch note velocity instr).1,
        ((Ctl.releaseSlotS F now 0 ({} : Ctl.Slot)).2 ++ Ctl.killWrites 0) ++
          (Ctl.occupySlot F now
            { Ctl.NewController libs n with
              slots := (Ctl.NewController libs n).slots.set 0
                (Ctl.releaseSlotS F now 0 ({} : Ctl.Slot)).1 }
            0 ch note velocity instr).2) := by
  obtain ⟨m, rfl⟩ : ∃ m, n = m + 1 := ⟨n - 1, by omega⟩
  have hrepl : (Ctl.NewController libs (m + 1)).slots =
      List.replicate (m + 1) ({} : Ctl.Slot) := rfl
  have h1 : ∀ i, i < m + 1 →
      (Ctl.slotAt (Ctl.NewController libs (m + 1)) i).flags = 0 := by
    intro i hi
    simp only [Ctl.slotAt, hrepl]
    rw [getD_replicate _ _ _ i hi]
  have h2 : Ctl.firstFreeIdx (Ctl.NewController libs (m + 1)).slots = none := by
    rw [hrepl]
    exact firstFreeIdx_replicate_dflt (m + 1)
  have hold : Ctl.oldestAux (Ctl.NewController libs (m + 1)).slots 0 (-1, now) =
      ((0 : Int), (0 : Nat)) := by
    rw [hrepl]
    show Ctl.oldestAux (({} : Ctl.Slot) :: List.replicate m {}) 0 (-1, now) = _
    simp only [Ctl.oldestAux]
    rw [if_pos (show ({} : Ctl.Slot).time < ((-1 : Int), now).2 from hnow)]
    exact oldestAux_replicate_keep m 1 0
  have h3 : Ctl.findFreeSlot F now (Ctl.NewController libs (m + 1)) =
      ((0 : Int),
        { Ctl.NewController libs (m + 1) with
          slots := (Ctl.NewController libs (m + 1)).slots.set 0
            (Ctl.releaseSlotS F now 0 ({} : Ctl.Slot)).1 },
        (Ctl.releaseSlotS F now 0 ({} : Ctl.Slot)).2 ++ Ctl.killWrites 0) := by
    simp only [Ctl.findFreeSlot, h2]
    rw [hold]
    rfl
  refine ⟨h1, h2, h3, rfl, ?_⟩
  have hlook' : Ctl.lookupProgram (Ctl.NewController libs (m + 1)).libraries
      ((Ctl.NewController libs (m + 1)).midiChannelStates ch) note = some instr :=
    hlook
  have hgi : Ctl.getInstrument (Ctl.NewController libs (m + 1)) ch note =
      ((instr, true), Ctl.NewController libs (m + 1)) := by
    rw [Ctl.getInstrument, hlook']
  simp only [Ctl.NoteOn, if_neg hvel, hgi, hfm]
  rw [h3]
  norm_num

theorem C10_witness :
    ((0 : Nat) < 16 ∧ (0 : Nat) < 1 ∧ (1 : Int) ≠ 0 ∧
      Ctl.lookupProgram Ctl.exLib ({} : Ctl.MidiChannelState) 60 = some {} ∧
      (({} : Ctl.Program)).voiceType = Ctl.VoiceType.fm) ∧
    Ctl.firstFreeIdx (Ctl.NewController Ctl.exLib 16).slots = none ∧
    (Ctl.findFreeSlot (fun _ _ => 0) 1 (Ctl.NewController Ctl.exLib 16)).1 = 0 := by
  have h := C10_fresh_steals_slot0 (fun _ _ => 0) 1 Ctl.exLib 16 (by decide)
    (by decide) 0 60 1 {} (by decide) (by decide) rfl
  exact ⟨⟨by decide, by decide, by decide, by decide, rfl⟩, h.2.1, by rw [h.2.2.1]⟩
